import Mathlib

/-!
Verification of the smartdim LUT synthesis pipeline.

This file gives a shallow embedding, over the real numbers, of the pure
numeric core of the smartdim repository:

- smartdim/lut.py      : monotone clipping, smoothstep, perceptual slider
  remap (gamma 0.65), the subtractive guarded brightness curve builder and
  the three-phase intensity parameter mapping of set_intensity.
- smartdim/warmth.py   : its own identical monotone clip and smoothstep, a
  perceptual slider remap with gamma 0.75, kelvin to RGB channels, kelvin
  to gains with peak preservation, and the color tint curve builder.
- smartdim/composer.py : the brightness parameter mapping reproduction,
  identity curves for controls at zero, curve composition by nearest-sample
  resampling, and the combined apply entry point with its restore sentinel.

Python float arithmetic is modelled by exact real arithmetic; Python round
(round half to even) is modelled by pyRound below.  Lists of samples are
List real; a list comprehension over range(n) is listOf n f.
-/

noncomputable section

open Real

/-- A Python list comprehension over range(n): the list f 0, f 1, ..., f (n-1). -/
def listOf (n : ℕ) (f : ℕ → ℝ) : List ℝ :=
  (List.range n).map f

/-- Python round: round half to even (banker rounding), as used by
the builtin round() on floats, then truncated by int(). -/
def pyRound (x : ℝ) : ℤ :=
  if Int.fract x < 1/2 then ⌊x⌋
  else if 1/2 < Int.fract x then ⌊x⌋ + 1
  else if Even ⌊x⌋ then ⌊x⌋ else ⌊x⌋ + 1

namespace Lut

/-- Clamp a sample into the unit interval; the expression
0.0 if y < 0.0 else 1.0 if y > 1.0 else y from lut.py line 29. -/
def clamp01 (y : ℝ) : ℝ :=
  if y < 0 then 0 else if 1 < y then 1 else y

/-- The forward pass of _monotone_clip: starting from the value prev of the
previous slot, each slot is raised to the running maximum.  ys[i] < ys[i-1]
followed by ys[i] = ys[i-1] is the same as taking max ys[i-1] ys[i]. -/
def monoPass : ℝ → List ℝ → List ℝ
  | _, [] => []
  | prev, y :: ys => max prev y :: monoPass (max prev y) ys

/-- smartdim.lut._monotone_clip: clamp every sample into the unit interval,
then a single forward pass enforcing ys[i] = max(ys[i], ys[i-1]). -/
def _monotone_clip (ys : List ℝ) : List ℝ :=
  match ys with
  | [] => []
  | y :: rest => clamp01 y :: monoPass (clamp01 y) (rest.map clamp01)

/-- smartdim.lut._smoothstep: Hermite smoothstep between edge0 and edge1. -/
def _smoothstep (edge0 edge1 x : ℝ) : ℝ :=
  if x ≤ edge0 then 0
  else if edge1 ≤ x then 1
  else
    let t := (x - edge0) / (edge1 - edge0)
    t * t * (3 - 2 * t)

/-- smartdim.lut._remap_slider: clamp, gamma pre-emphasis with exponent
0.65, then a gentle S curve with strength k = 0.35, then clamp. -/
def _remap_slider (s_raw : ℝ) : ℝ :=
  let s0 := if s_raw < 0 then 0 else if 1 < s_raw then 1 else s_raw
  let s := s0 ^ (0.65 : ℝ)
  let k := (0.35 : ℝ)
  let y := 0.5 + (s - 0.5) * (1 + k - k * 4.0 * |s - 0.5|)
  if y < 0 then 0 else if 1 < y then 1 else y

/-- smartdim.lut.build_lut_subtractive_guarded: subtractive guarded dimming
curve sampled at n points, identical for all three channels. -/
def build_lut_subtractive_guarded (n : ℕ) (guard guard_width offset beta : ℝ)
    (white_cap : Option ℝ) : List ℝ × List ℝ × List ℝ :=
  let g0 := max 0 (min 1 guard)
  let g1 := max g0 (min 0.999 (g0 + max 0.002 guard_width))
  let off := max 0 (min 1 offset)
  let b := max 0 (min 1 beta)
  let ys0 := listOf n (fun i =>
    let x := (i : ℝ) / ((n : ℝ) - 1)
    let y_sub := max 0 (x - off)
    let w := _smoothstep g0 g1 x
    (1 - w) * x + w * y_sub)
  let ys1 := if b = 1 then ys0 else ys0.map (fun y => y * b)
  let ys2 := match white_cap with
    | none => ys1
    | some cap =>
      ys1.dropLast ++ (match ys1.getLast? with
        | none => []
        | some y => [min y cap])
  let ys3 := _monotone_clip ys2
  (ys3, ys3, ys3)

/-- Phase A of set_intensity, as a function of the in-phase coordinate u:
(guard, offset, beta) = (0.94 - 0.10 u, 0.00 + 0.14 u, 1.00 - 0.03 u). -/
def phaseA (u : ℝ) : ℝ × ℝ × ℝ :=
  (0.94 - 0.10 * u, 0.00 + 0.14 * u, 1.0 - 0.03 * u)

/-- Phase B of set_intensity as a function of u. -/
def phaseB (u : ℝ) : ℝ × ℝ × ℝ :=
  (0.84 - 0.24 * u, 0.14 + 0.12 * u, 0.97 - 0.07 * u)

/-- Phase C of set_intensity as a function of u; the beta ramp is
1.0 - (1.0 - 0.55) u, starting at 1.00 at u = 0. -/
def phaseC (u : ℝ) : ℝ × ℝ × ℝ :=
  (0.60 - 0.22 * u, 0.26 + 0.18 * u, 1.0 - (1.0 - 0.55) * u)

/-- The parameter mapping of smartdim.lut.set_intensity: clamp the
intensity, return none (restore system colors) at or below 1e-3, otherwise
remap the slider and produce (guard, guard_width, offset, beta) from the
three even-thirds phases. -/
def set_intensity_params (intensity : ℝ) : Option (ℝ × ℝ × ℝ × ℝ) :=
  let s_user := if intensity < 0 then 0 else if 1 < intensity then 1 else intensity
  if s_user ≤ 1e-3 then none
  else
    let s := _remap_slider s_user
    let splitA := (1 : ℝ) / 3
    let splitB := (2 : ℝ) / 3
    let guard_width := (0.050 : ℝ)
    if s ≤ splitA then
      let u := s / splitA
      some (0.94 - 0.10 * u, guard_width, 0.00 + 0.14 * u, 1.0 - 0.03 * u)
    else if s ≤ splitB then
      let u := (s - splitA) / (splitB - splitA)
      some (0.84 - 0.24 * u, guard_width, 0.14 + 0.12 * u, 0.97 - 0.07 * u)
    else
      let u := (s - splitB) / (1 - splitB)
      some (0.60 - 0.22 * u, guard_width, 0.26 + 0.18 * u,
        1.0 - (1.0 - 0.55) * u ^ (1.0 : ℝ))

/-- smartdim.lut.set_intensity, as a pure function: none signals restore of
the platform defaults, otherwise the curve triple built from the derived
parameters with the module default white_cap = None. -/
def set_intensity (intensity : ℝ) (n : ℕ) : Option (List ℝ × List ℝ × List ℝ) :=
  match set_intensity_params intensity with
  | none => none
  | some (g, gw, off, b) => some (build_lut_subtractive_guarded n g gw off b none)

end Lut

namespace Warmth

/-- smartdim.warmth._monotone_clip, textually identical to the lut.py copy. -/
def _monotone_clip (ys : List ℝ) : List ℝ :=
  match ys with
  | [] => []
  | y :: rest => Lut.clamp01 y :: Lut.monoPass (Lut.clamp01 y) (rest.map Lut.clamp01)

/-- smartdim.warmth._smoothstep, textually identical to the lut.py copy. -/
def _smoothstep (a b x : ℝ) : ℝ :=
  if x ≤ a then 0
  else if b ≤ x then 1
  else
    let t := (x - a) / (b - a)
    t * t * (3 - 2 * t)

/-- smartdim.warmth._remap_slider: clamp, gamma pre-emphasis with exponent
0.75 (lut.py uses 0.65), the same S curve with k = 0.35, then clamp. -/
def _remap_slider (s_raw : ℝ) : ℝ :=
  let s0 := if s_raw < 0 then 0 else if 1 < s_raw then 1 else s_raw
  let s := s0 ^ (0.75 : ℝ)
  let k := (0.35 : ℝ)
  let y := 0.5 + (s - 0.5) * (1 + k - k * 4.0 * |s - 0.5|)
  if y < 0 then 0 else if 1 < y then 1 else y

/-- smartdim.warmth._kelvin_to_rgb_channels: blackbody approximation,
returning (R, G, B) each in the unit interval. -/
def _kelvin_to_rgb_channels (kin : ℝ) : ℝ × ℝ × ℝ :=
  let k := max 1000 (min 40000 kin) / 100
  let r := if k ≤ 66 then (255 : ℝ)
    else max 0 (min 255 (329.698727446 * (k - 60) ^ (-0.1332047592 : ℝ)))
  let g0 := if k ≤ 66 then 99.4708025861 * Real.log k - 161.1195681661
    else 288.1221695283 * (k - 60) ^ (-0.0755148492 : ℝ)
  let g := max 0 (min 255 g0)
  let b := if 66 ≤ k then (255 : ℝ)
    else if k ≤ 19 then 0
    else max 0 (min 255 (138.5177312231 * Real.log (k - 10) - 305.0447927307))
  (r / 255, g / 255, b / 255)

/-- smartdim.warmth._kelvin_to_gains: per-channel gains relative to the
6500K reference; with preserve_peak, rescale all gains down by the maximum
whenever it exceeds 1. -/
def _kelvin_to_gains (k : ℝ) (preserve_peak : Bool) : ℝ × ℝ × ℝ :=
  let ref := _kelvin_to_rgb_channels 6500
  let tgt := _kelvin_to_rgb_channels k
  let gr := tgt.1 / max 1e-6 ref.1
  let gg := tgt.2.1 / max 1e-6 ref.2.1
  let gb := tgt.2.2 / max 1e-6 ref.2.2
  if preserve_peak then
    let m := max gr (max gg gb)
    if 1 < m then (gr / m, gg / m, gb / m) else (gr, gg, gb)
  else (gr, gg, gb)

/-- One channel value of _build_lut_color_tint at abscissa x: soft highlight
shoulder near 1.0 (up to 7 percent), per-channel gain, then the optional
beta dim applied only when beta is not exactly 1. -/
def tintChannel (gain beta rolloff x : ℝ) : ℝ :=
  let t := _smoothstep (1 - rolloff) 1 x
  let shoulder := 1 - 0.07 * t
  let v := min 1 (x * gain) * shoulder
  if beta = 1 then v else v * beta

/-- smartdim.warmth._build_lut_color_tint: three 1D LUTs with per-channel
gains, shoulder rolloff and beta, each monotone-clipped independently. -/
def _build_lut_color_tint (n : ℕ) (r_gain g_gain b_gain beta rolloff : ℝ) :
    List ℝ × List ℝ × List ℝ :=
  (_monotone_clip (listOf n (fun i => tintChannel r_gain beta rolloff ((i : ℝ) / ((n : ℝ) - 1)))),
   _monotone_clip (listOf n (fun i => tintChannel g_gain beta rolloff ((i : ℝ) / ((n : ℝ) - 1)))),
   _monotone_clip (listOf n (fun i => tintChannel b_gain beta rolloff ((i : ℝ) / ((n : ℝ) - 1)))))

end Warmth

namespace Composer

/-- The identity LUT built by composer.py for a control at zero:
xs = [i / (n - 1) for i in range(n)], used for all three channels. -/
def identityLut (n : ℕ) : List ℝ :=
  listOf n (fun i => (i : ℝ) / ((n : ℝ) - 1))

/-- Phase A of composer._brightness_params_from_slider as a function of u. -/
def cPhaseA (u : ℝ) : ℝ × ℝ × ℝ :=
  (0.94 - 0.10 * u, 0.00 + 0.14 * u, 1.00 - 0.03 * u)

/-- Phase B of composer._brightness_params_from_slider as a function of u. -/
def cPhaseB (u : ℝ) : ℝ × ℝ × ℝ :=
  (0.84 - 0.24 * u, 0.14 + 0.12 * u, 0.97 - 0.07 * u)

/-- Phase C of composer._brightness_params_from_slider as a function of u;
unlike lut.set_intensity, the beta ramp starts at beta_start = 0.90. -/
def cPhaseC (u : ℝ) : ℝ × ℝ × ℝ :=
  (0.60 - 0.22 * u, 0.26 + 0.18 * u, 0.90 - (0.90 - 0.55) * u)

/-- smartdim.composer._brightness_params_from_slider: the parameter mapping
of set_intensity reproduced without applying; none means identity.  Note
the phase C beta here ramps from beta_start = 0.90, not from 1.0. -/
def _brightness_params_from_slider (s_user0 : ℝ) : Option (ℝ × ℝ × ℝ × ℝ) :=
  let s_user := if s_user0 < 0 then 0 else if 1 < s_user0 then 1 else s_user0
  if s_user ≤ 1e-3 then none
  else
    let s := Lut._remap_slider s_user
    let splitA := (1 : ℝ) / 3
    let splitB := (2 : ℝ) / 3
    let guard_width := (0.050 : ℝ)
    if s ≤ splitA then
      let u := s / splitA
      some (0.94 - 0.10 * u, guard_width, 0.00 + 0.14 * u, 1.00 - 0.03 * u)
    else if s ≤ splitB then
      let u := (s - splitA) / (splitB - splitA)
      some (0.84 - 0.24 * u, guard_width, 0.14 + 0.12 * u, 0.97 - 0.07 * u)
    else
      let u := (s - splitB) / (1 - splitB)
      some (0.60 - 0.22 * u, guard_width, 0.26 + 0.18 * u,
        0.90 - (0.90 - 0.55) * u ^ (1.0 : ℝ))

/-- smartdim.composer._build_brightness_only_lut: identity LUT when the
params are none, otherwise the subtractive guarded build (white_cap keeps
its module default None). -/
def _build_brightness_only_lut (intensity : ℝ) (n : ℕ) : List ℝ × List ℝ × List ℝ :=
  match _brightness_params_from_slider intensity with
  | none => (identityLut n, identityLut n, identityLut n)
  | some (guard, guard_width, offset, beta) =>
    Lut.build_lut_subtractive_guarded n guard guard_width offset beta none

/-- smartdim.composer._build_warmth_only_luts: identity LUT at or below the
1e-3 threshold, otherwise mired interpolation to a kelvin value, the gentle
beta curve, peak-preserved gains, and the color tint build with the default
rolloff 0.08. -/
def _build_warmth_only_luts (strength : ℝ) (n : ℕ) : List ℝ × List ℝ × List ℝ :=
  let s_user := if strength < 0 then 0 else if 1 < strength then 1 else strength
  if s_user ≤ 1e-3 then (identityLut n, identityLut n, identityLut n)
  else
    let s := Warmth._remap_slider s_user
    let kelvin_min := (1900.0 : ℝ)
    let kelvin_max := (6500.0 : ℝ)
    let m_max := 1e6 / kelvin_max
    let m_min := 1e6 / kelvin_min
    let m := m_max + (m_min - m_max) * s
    let kelvin := max kelvin_min (min kelvin_max (1e6 / m))
    let beta := if s < 0.4 then 1.0 - 0.02 * (s / 0.4)
      else 0.98 - 0.08 * ((s - 0.4) / 0.6) ^ (1.2 : ℝ)
    let gains := Warmth._kelvin_to_gains kelvin true
    Warmth._build_lut_color_tint n gains.1 gains.2.1 gains.2.2 beta 0.08

/-- The inner sample helper of _compose_luts: resample arr at position y,
clamping y into the unit interval and rounding to the nearest sample index
(Python round, half to even). -/
def sampleAt (n : ℕ) (arr : List ℝ) (y : ℝ) : ℝ :=
  arr.getD (pyRound (max 0 (min 1 y) * ((n : ℝ) - 1))).toNat 0

/-- One output channel of _compose_luts: out[i] = tint[j] at
j = round(clamp(base[i]) * (n - 1)). -/
def composeChannel (n : ℕ) (base tint : List ℝ) : List ℝ :=
  listOf n (fun i => sampleAt n tint (base.getD i 0))

/-- smartdim.composer._compose_luts: compose base and tint channelwise as
functions, with n taken from the length of the base red channel. -/
def _compose_luts (br bg bb tr tg tb : List ℝ) : List ℝ × List ℝ × List ℝ :=
  (composeChannel br.length br tr,
   composeChannel br.length bg tg,
   composeChannel br.length bb tb)

/-- The curve triple that apply_combined builds and installs when it does
not restore: brightness LUT composed with warmth LUT. -/
def combinedCurves (intensity warmth_strength : ℝ) (n : ℕ) :
    List ℝ × List ℝ × List ℝ :=
  let b := _build_brightness_only_lut intensity n
  let t := _build_warmth_only_luts warmth_strength n
  _compose_luts b.1 b.2.1 b.2.2 t.1 t.2.1 t.2.2

/-- smartdim.composer.apply_combined as a pure function: none is the
restore-platform-defaults sentinel (taken exactly when both raw controls
are at or below 1e-3); otherwise the composed curve triple is applied. -/
def apply_combined (intensity warmth_strength : ℝ) (n : ℕ) :
    Option (List ℝ × List ℝ × List ℝ) :=
  if intensity ≤ 1e-3 ∧ warmth_strength ≤ 1e-3 then none
  else some (combinedCurves intensity warmth_strength n)

end Composer

/-- A curve is valid when every sample lies in the unit interval and the
samples are non-decreasing along the index. -/
def curveOK (l : List ℝ) : Prop :=
  (∀ y ∈ l, 0 ≤ y ∧ y ≤ 1) ∧ l.Pairwise (· ≤ ·)

end

/-! ## Basic facts about listOf -/

theorem listOf_length (n : ℕ) (f : ℕ → ℝ) : (listOf n f).length = n := by
  simp [listOf]

theorem listOf_getElem (n : ℕ) (f : ℕ → ℝ) (i : ℕ) (h : i < (listOf n f).length) :
    (listOf n f)[i] = f i := by
  simp [listOf]

theorem listOf_getD (n : ℕ) (f : ℕ → ℝ) (i : ℕ) (h : i < n) :
    (listOf n f).getD i 0 = f i := by
  rw [List.getD_eq_getElem _ _ (by simpa [listOf_length] using h)]
  exact listOf_getElem n f i _

theorem listOf_mem {n : ℕ} {f : ℕ → ℝ} {y : ℝ} (h : y ∈ listOf n f) :
    ∃ i, i < n ∧ f i = y := by
  simp only [listOf, List.mem_map, List.mem_range] at h
  obtain ⟨i, hi, rfl⟩ := h
  exact ⟨i, hi, rfl⟩

theorem listOf_pairwise {n : ℕ} {f : ℕ → ℝ}
    (hf : ∀ i j, i ≤ j → j < n → f i ≤ f j) :
    (listOf n f).Pairwise (· ≤ ·) := by
  rw [List.pairwise_iff_get]
  intro i j hij
  have hi := i.isLt
  have hj := j.isLt
  simp only [listOf_length] at hi hj
  simp only [List.get_eq_getElem, listOf_getElem]
  exact hf i j (le_of_lt hij) hj

theorem listOf_map (n : ℕ) (f : ℕ → ℝ) (g : ℝ → ℝ) :
    (listOf n f).map g = listOf n (fun i => g (f i)) := by
  simp [listOf, List.map_map]

theorem listOf_succ_concat (n : ℕ) (f : ℕ → ℝ) :
    listOf (n + 1) f = listOf n f ++ [f n] := by
  simp [listOf, List.range_succ]

theorem listOf_getLastD {n : ℕ} (hn : 0 < n) (f : ℕ → ℝ) :
    (listOf n f).getLastD 0 = f (n - 1) := by
  obtain ⟨m, rfl⟩ := Nat.exists_eq_add_of_le hn
  rw [Nat.add_comm 1 m, listOf_succ_concat]
  simp [List.getLastD_eq_getLast?, List.getLast?_append]

theorem listOf_succ_cons (n : ℕ) (f : ℕ → ℝ) :
    listOf (n + 1) f = f 0 :: listOf n (fun i => f (i + 1)) := by
  simp only [listOf, List.range_succ_eq_map, List.map_cons, List.map_map]
  rfl

theorem listOf_ne_nil {n : ℕ} (hn : 0 < n) (f : ℕ → ℝ) : listOf n f ≠ [] := by
  intro h
  have := listOf_length n f
  rw [h] at this
  simp at this
  omega

/-! ## Basic facts about clamp01 -/

namespace Lut

theorem clamp01_nonneg (y : ℝ) : 0 ≤ clamp01 y := by
  unfold clamp01
  split_ifs <;> linarith

theorem clamp01_le_one (y : ℝ) : clamp01 y ≤ 1 := by
  unfold clamp01
  split_ifs <;> linarith

theorem clamp01_mono {y z : ℝ} (h : y ≤ z) : clamp01 y ≤ clamp01 z := by
  unfold clamp01
  split_ifs <;> linarith

theorem clamp01_of_mem {y : ℝ} (h0 : 0 ≤ y) (h1 : y ≤ 1) : clamp01 y = y := by
  unfold clamp01
  split_ifs <;> linarith

theorem clamp01_le_of_le {y m : ℝ} (hym : y ≤ m) (hm : 0 ≤ m) : clamp01 y ≤ m := by
  unfold clamp01
  split_ifs <;> linarith

/-! ## monoPass and _monotone_clip -/

theorem monoPass_length (p : ℝ) (l : List ℝ) : (monoPass p l).length = l.length := by
  induction l generalizing p with
  | nil => rfl
  | cons y ys ih => simp [monoPass, ih]

theorem monoPass_mem_bounds {p : ℝ} {l : List ℝ} (hp0 : 0 ≤ p) (hp1 : p ≤ 1)
    (hl : ∀ y ∈ l, 0 ≤ y ∧ y ≤ 1) :
    ∀ y ∈ monoPass p l, 0 ≤ y ∧ y ≤ 1 := by
  induction l generalizing p with
  | nil => intro y hy; simp [monoPass] at hy
  | cons a as ih =>
    intro y hy
    have ha := hl a (by simp)
    simp only [monoPass, List.mem_cons] at hy
    rcases hy with rfl | hy
    · exact ⟨le_max_of_le_left hp0, max_le hp1 ha.2⟩
    · exact ih (le_max_of_le_left hp0) (max_le hp1 ha.2)
        (fun z hz => hl z (by simp [hz])) y hy

theorem monoPass_chain (p : ℝ) (l : List ℝ) :
    List.Chain (· ≤ ·) p (monoPass p l) := by
  induction l generalizing p with
  | nil => exact List.Chain.nil
  | cons a as ih => exact List.Chain.cons (le_max_left p a) (ih (max p a))

theorem monoPass_le_bound {p m : ℝ} {l : List ℝ} (hp : p ≤ m)
    (hl : ∀ y ∈ l, y ≤ m) :
    ∀ y ∈ monoPass p l, y ≤ m := by
  induction l generalizing p with
  | nil => intro y hy; simp [monoPass] at hy
  | cons a as ih =>
    intro y hy
    have ha := hl a (by simp)
    simp only [monoPass, List.mem_cons] at hy
    rcases hy with rfl | hy
    · exact max_le hp ha
    · exact ih (max_le hp ha) (fun z hz => hl z (by simp [hz])) y hy

theorem monoPass_getLastD (p : ℝ) (l : List ℝ) :
    (monoPass p l).getLastD p = l.foldl max p := by
  induction l generalizing p with
  | nil => rfl
  | cons a as ih =>
    simp only [monoPass, List.foldl_cons, List.getLastD_cons]
    exact ih (max p a)

theorem monotone_clip_length (ys : List ℝ) :
    (_monotone_clip ys).length = ys.length := by
  cases ys with
  | nil => rfl
  | cons y rest => simp [_monotone_clip, monoPass_length]

theorem monotone_clip_mem_bounds (ys : List ℝ) :
    ∀ y ∈ _monotone_clip ys, 0 ≤ y ∧ y ≤ 1 := by
  cases ys with
  | nil => intro y hy; simp [_monotone_clip] at hy
  | cons a as =>
    intro y hy
    simp only [_monotone_clip, List.mem_cons] at hy
    rcases hy with rfl | hy
    · exact ⟨clamp01_nonneg a, clamp01_le_one a⟩
    · refine monoPass_mem_bounds (clamp01_nonneg a) (clamp01_le_one a) ?_ y hy
      intro z hz
      obtain ⟨w, _, rfl⟩ := List.mem_map.1 hz
      exact ⟨clamp01_nonneg w, clamp01_le_one w⟩

theorem monotone_clip_pairwise (ys : List ℝ) :
    (_monotone_clip ys).Pairwise (· ≤ ·) := by
  cases ys with
  | nil => simp [_monotone_clip]
  | cons a as =>
    have h := monoPass_chain (clamp01 a) (as.map clamp01)
    simpa [_monotone_clip] using List.chain_iff_pairwise.1 h

theorem monotone_clip_curveOK (ys : List ℝ) : curveOK (_monotone_clip ys) :=
  ⟨monotone_clip_mem_bounds ys, monotone_clip_pairwise ys⟩

end Lut

/-! ## foldl max and the last sample of _monotone_clip -/

theorem le_foldl_max (p : ℝ) (l : List ℝ) : p ≤ l.foldl max p := by
  induction l generalizing p with
  | nil => exact le_refl p
  | cons a as ih => exact le_trans (le_max_left p a) (ih (max p a))

theorem le_foldl_max_of_mem {a p : ℝ} {l : List ℝ} (h : a ∈ l) :
    a ≤ l.foldl max p := by
  induction l generalizing p with
  | nil => simp at h
  | cons b bs ih =>
    rcases List.mem_cons.1 h with rfl | h
    · exact le_trans (le_max_right p a) (le_foldl_max _ bs)
    · exact ih h

theorem foldl_max_le {p m : ℝ} {l : List ℝ} (hp : p ≤ m)
    (hl : ∀ a ∈ l, a ≤ m) : l.foldl max p ≤ m := by
  induction l generalizing p with
  | nil => exact hp
  | cons a as ih =>
    exact ih (max_le hp (hl a (by simp))) (fun z hz => hl z (by simp [hz]))

theorem monotone_clip_getLastD {ys : List ℝ} (hne : ys ≠ []) {m : ℝ}
    (hall : ∀ a ∈ ys, Lut.clamp01 a ≤ m)
    (hlast : Lut.clamp01 (ys.getLastD 0) = m) :
    (Lut._monotone_clip ys).getLastD 0 = m := by
  cases ys with
  | nil => exact absurd rfl hne
  | cons y l =>
    have hfold : (Lut._monotone_clip (y :: l)).getLastD 0
        = (l.map Lut.clamp01).foldl max (Lut.clamp01 y) := by
      simp only [Lut._monotone_clip, List.getLastD_cons]
      exact Lut.monoPass_getLastD _ _
    rw [hfold]
    have hy : Lut.clamp01 y ≤ m := hall y (by simp)
    have hmap : ∀ a ∈ l.map Lut.clamp01, a ≤ m := by
      intro a ha
      obtain ⟨w, hw, rfl⟩ := List.mem_map.1 ha
      exact hall w (by simp [hw])
    refine le_antisymm (foldl_max_le hy hmap) ?_
    cases l with
    | nil =>
      simp only [List.getLastD_cons, List.getLastD_nil] at hlast
      simp [List.foldl_nil, hlast]
    | cons b bs =>
      have hmem : Lut.clamp01 ((y :: b :: bs).getLastD 0) ∈ (b :: bs).map Lut.clamp01 := by
        have : (y :: b :: bs).getLastD 0 = (b :: bs).getLast (by simp) := by
          simp [List.getLastD_eq_getLast?, List.getLast?_eq_getLast]
        rw [this]
        exact List.mem_map.2 ⟨_, List.getLast_mem _, rfl⟩
      rw [← hlast]
      exact le_foldl_max_of_mem hmem

theorem monotone_clip_headD (y : ℝ) (l : List ℝ) :
    (Lut._monotone_clip (y :: l)).headD 0 = Lut.clamp01 y := by
  simp [Lut._monotone_clip]

/-! ## pyRound -/

theorem pyRound_floor_le (x : ℝ) : ⌊x⌋ ≤ pyRound x := by
  unfold pyRound
  split_ifs <;> omega

theorem pyRound_le_floor_add_one (x : ℝ) : pyRound x ≤ ⌊x⌋ + 1 := by
  unfold pyRound
  split_ifs <;> omega

theorem pyRound_intCast (k : ℤ) : pyRound (k : ℝ) = k := by
  unfold pyRound
  rw [Int.fract_intCast]
  norm_num

theorem pyRound_natCast (m : ℕ) : pyRound (m : ℝ) = m := by
  have := pyRound_intCast (m : ℤ)
  rw [Int.cast_natCast] at this
  exact this

theorem pyRound_nonneg {x : ℝ} (h : 0 ≤ x) : 0 ≤ pyRound x :=
  le_trans (Int.le_floor.2 (by exact_mod_cast h)) (pyRound_floor_le x)

theorem pyRound_le_of_le_int {x : ℝ} {m : ℤ} (h : x ≤ (m : ℝ)) :
    pyRound x ≤ m := by
  have hfl : ⌊x⌋ ≤ m := by
    have := Int.floor_mono h
    rwa [Int.floor_intCast] at this
  rcases eq_or_lt_of_le hfl with heq | hlt
  · have hxm : (m : ℝ) ≤ x := by
      rw [← heq]
      exact_mod_cast Int.floor_le x
    have hx : x = (m : ℝ) := le_antisymm h hxm
    rw [hx, pyRound_intCast]
  · calc pyRound x ≤ ⌊x⌋ + 1 := pyRound_le_floor_add_one x
      _ ≤ m := by omega

theorem pyRound_mono {x y : ℝ} (h : x ≤ y) : pyRound x ≤ pyRound y := by
  rcases lt_or_le ⌊x⌋ ⌊y⌋ with hf | hf
  · calc pyRound x ≤ ⌊x⌋ + 1 := pyRound_le_floor_add_one x
      _ ≤ ⌊y⌋ := by omega
      _ ≤ pyRound y := pyRound_floor_le y
  · have hfe : ⌊x⌋ = ⌊y⌋ := le_antisymm (Int.floor_mono h) hf
    have hfr : Int.fract x ≤ Int.fract y := by
      have hc : ((⌊x⌋ : ℤ) : ℝ) = ((⌊y⌋ : ℤ) : ℝ) := by rw [hfe]
      simp only [Int.fract]
      linarith
    unfold pyRound
    rw [hfe]
    split_ifs <;> first | omega | (exfalso; linarith)

theorem abs_pyRound_sub_le (x : ℝ) : |(pyRound x : ℝ) - x| ≤ 1/2 := by
  have h0 : (⌊x⌋ : ℝ) ≤ x := Int.floor_le x
  have h1 : x < ⌊x⌋ + 1 := Int.lt_floor_add_one x
  have hfr : Int.fract x = x - ⌊x⌋ := rfl
  have hf0 : 0 ≤ Int.fract x := Int.fract_nonneg x
  have hf1 : Int.fract x < 1 := Int.fract_lt_one x
  unfold pyRound
  split_ifs with ha hb hc <;>
    (rw [abs_le]; push_cast; constructor <;> linarith)

/-! ## getD monotonicity along a sorted list -/

theorem getD_mono_of_pairwise {l : List ℝ} (hp : l.Pairwise (· ≤ ·))
    {i j : ℕ} (hij : i ≤ j) (hj : j < l.length) : l.getD i 0 ≤ l.getD j 0 := by
  have hi : i < l.length := lt_of_le_of_lt hij hj
  rw [List.getD_eq_getElem _ _ hi, List.getD_eq_getElem _ _ hj]
  rcases eq_or_lt_of_le hij with rfl | hlt
  · exact le_refl _
  · exact List.pairwise_iff_get.1 hp ⟨i, hi⟩ ⟨j, hj⟩ hlt

theorem getD_mem_or_default (l : List ℝ) (i : ℕ) :
    l.getD i 0 ∈ l ∨ l.getD i 0 = 0 := by
  rcases lt_or_le i l.length with h | h
  · rw [List.getD_eq_getElem _ _ h]
    exact Or.inl (List.getElem_mem h)
  · right
    rw [List.getD_eq_default _ _ h]

/-! ## sampleAt and composeChannel -/

namespace Composer

theorem sampleAt_index_le {n : ℕ} (hn : 1 ≤ n) (y : ℝ) :
    pyRound (max 0 (min 1 y) * ((n : ℝ) - 1)) ≤ (n : ℤ) - 1 := by
  have hc1 : max 0 (min 1 y) ≤ 1 := max_le (by norm_num) (min_le_left 1 y)
  have hn1 : (0 : ℝ) ≤ (n : ℝ) - 1 := by
    have : (1 : ℝ) ≤ (n : ℝ) := by exact_mod_cast hn
    linarith
  have hv : max 0 (min 1 y) * ((n : ℝ) - 1) ≤ (((n : ℤ) - 1 : ℤ) : ℝ) := by
    push_cast
    nlinarith
  exact pyRound_le_of_le_int hv

theorem sampleAt_index_nonneg (n : ℕ) (y : ℝ) :
    0 ≤ pyRound (max 0 (min 1 y) * ((n : ℝ) - 1)) ∨ n = 0 := by
  rcases Nat.eq_zero_or_pos n with rfl | hn
  · exact Or.inr rfl
  · left
    apply pyRound_nonneg
    have hc0 : 0 ≤ max 0 (min 1 y) := le_max_left 0 (min 1 y)
    have hn1 : (0 : ℝ) ≤ (n : ℝ) - 1 := by
      have : (1 : ℝ) ≤ (n : ℝ) := by exact_mod_cast hn
      linarith
    exact mul_nonneg hc0 hn1

theorem sampleAt_mem_bounds {arr : List ℝ}
    (h : ∀ a ∈ arr, 0 ≤ a ∧ a ≤ 1) (n : ℕ) (y : ℝ) :
    0 ≤ sampleAt n arr y ∧ sampleAt n arr y ≤ 1 := by
  unfold sampleAt
  rcases getD_mem_or_default arr (pyRound (max 0 (min 1 y) * ((n : ℝ) - 1))).toNat with
    hmem | hdef
  · exact h _ hmem
  · rw [hdef]
    norm_num

theorem sampleAt_mono {n : ℕ} {arr : List ℝ} (hp : arr.Pairwise (· ≤ ·))
    (hl : arr.length = n) (hn : 1 ≤ n) {y z : ℝ} (h : y ≤ z) :
    sampleAt n arr y ≤ sampleAt n arr z := by
  unfold sampleAt
  have hcl : max 0 (min 1 y) ≤ max 0 (min 1 z) :=
    max_le_max (le_refl 0) (min_le_min (le_refl 1) h)
  have hn1 : (0 : ℝ) ≤ (n : ℝ) - 1 := by
    have : (1 : ℝ) ≤ (n : ℝ) := by exact_mod_cast hn
    linarith
  have hmul : max 0 (min 1 y) * ((n : ℝ) - 1) ≤ max 0 (min 1 z) * ((n : ℝ) - 1) :=
    mul_le_mul_of_nonneg_right hcl hn1
  have hr : pyRound (max 0 (min 1 y) * ((n : ℝ) - 1))
      ≤ pyRound (max 0 (min 1 z) * ((n : ℝ) - 1)) := pyRound_mono hmul
  have hjz : (pyRound (max 0 (min 1 z) * ((n : ℝ) - 1))).toNat < arr.length := by
    have hle := sampleAt_index_le hn z
    rw [hl]
    omega
  exact getD_mono_of_pairwise hp (by omega) hjz

theorem composeChannel_length (n : ℕ) (base tint : List ℝ) :
    (composeChannel n base tint).length = n := by
  simp [composeChannel, listOf_length]

theorem composeChannel_mem_bounds {tint : List ℝ}
    (h : ∀ a ∈ tint, 0 ≤ a ∧ a ≤ 1) (n : ℕ) (base : List ℝ) :
    ∀ a ∈ composeChannel n base tint, 0 ≤ a ∧ a ≤ 1 := by
  intro a ha
  obtain ⟨i, _, rfl⟩ := listOf_mem ha
  exact sampleAt_mem_bounds h n _

theorem composeChannel_pairwise {n : ℕ} {base tint : List ℝ}
    (hb : base.Pairwise (· ≤ ·)) (hbl : base.length = n)
    (ht : tint.Pairwise (· ≤ ·)) (htl : tint.length = n) (hn : 1 ≤ n) :
    (composeChannel n base tint).Pairwise (· ≤ ·) := by
  apply listOf_pairwise
  intro i j hij hj
  apply sampleAt_mono ht htl hn
  exact getD_mono_of_pairwise hb hij (by omega)

theorem composeChannel_curveOK {n : ℕ} {base tint : List ℝ}
    (hb : curveOK base) (hbl : base.length = n)
    (ht : curveOK tint) (htl : tint.length = n) (hn : 1 ≤ n) :
    curveOK (composeChannel n base tint) :=
  ⟨composeChannel_mem_bounds ht.1 n base,
   composeChannel_pairwise hb.2 hbl ht.2 htl hn⟩

/-! ## The identity LUT -/

theorem identityLut_length (n : ℕ) : (identityLut n).length = n :=
  listOf_length _ _

theorem identityLut_curveOK {n : ℕ} (hn : 2 ≤ n) : curveOK (identityLut n) := by
  have hn1 : (1 : ℝ) ≤ (n : ℝ) - 1 := by
    have : (2 : ℝ) ≤ (n : ℝ) := by exact_mod_cast hn
    linarith
  constructor
  · intro y hy
    obtain ⟨i, hi, rfl⟩ := listOf_mem hy
    constructor
    · exact div_nonneg (Nat.cast_nonneg i) (by linarith)
    · rw [div_le_one (by linarith)]
      have : (i : ℝ) + 1 ≤ (n : ℝ) := by exact_mod_cast hi
      linarith
  · apply listOf_pairwise
    intro i j hij _
    apply div_le_div_of_nonneg_right ?_ (by linarith)
    · exact_mod_cast hij

end Composer

/-! ## Invariants of the curve builders -/

theorem warmth_monotone_clip_eq : Warmth._monotone_clip = Lut._monotone_clip := rfl

theorem build_lut_components (n : ℕ) (guard gw off beta : ℝ) (wc : Option ℝ) :
    (Lut.build_lut_subtractive_guarded n guard gw off beta wc).2.1
        = (Lut.build_lut_subtractive_guarded n guard gw off beta wc).1
      ∧ (Lut.build_lut_subtractive_guarded n guard gw off beta wc).2.2
        = (Lut.build_lut_subtractive_guarded n guard gw off beta wc).1 :=
  ⟨rfl, rfl⟩

theorem build_lut_fst_eq_clip (n : ℕ) (guard gw off beta : ℝ) (wc : Option ℝ) :
    ∃ ys, (Lut.build_lut_subtractive_guarded n guard gw off beta wc).1
      = Lut._monotone_clip ys :=
  ⟨_, rfl⟩

theorem build_lut_fst_curveOK (n : ℕ) (guard gw off beta : ℝ) (wc : Option ℝ) :
    curveOK (Lut.build_lut_subtractive_guarded n guard gw off beta wc).1 := by
  obtain ⟨ys, hys⟩ := build_lut_fst_eq_clip n guard gw off beta wc
  rw [hys]
  exact Lut.monotone_clip_curveOK ys

theorem build_lut_none_fst_length (n : ℕ) (guard gw off beta : ℝ) :
    (Lut.build_lut_subtractive_guarded n guard gw off beta none).1.length = n := by
  simp only [Lut.build_lut_subtractive_guarded, Lut.monotone_clip_length]
  split
  · exact listOf_length _ _
  · simp [listOf_length]

theorem tint_fst_eq_clip (n : ℕ) (rg gg bg beta rolloff : ℝ) :
    (Warmth._build_lut_color_tint n rg gg bg beta rolloff).1
      = Lut._monotone_clip (listOf n
          (fun i => Warmth.tintChannel rg beta rolloff ((i : ℝ) / ((n : ℝ) - 1)))) := rfl

theorem tint_snd_eq_clip (n : ℕ) (rg gg bg beta rolloff : ℝ) :
    (Warmth._build_lut_color_tint n rg gg bg beta rolloff).2.1
      = Lut._monotone_clip (listOf n
          (fun i => Warmth.tintChannel gg beta rolloff ((i : ℝ) / ((n : ℝ) - 1)))) := rfl

theorem tint_thd_eq_clip (n : ℕ) (rg gg bg beta rolloff : ℝ) :
    (Warmth._build_lut_color_tint n rg gg bg beta rolloff).2.2
      = Lut._monotone_clip (listOf n
          (fun i => Warmth.tintChannel bg beta rolloff ((i : ℝ) / ((n : ℝ) - 1)))) := rfl

theorem tint_curveOK_and_length (n : ℕ) (rg gg bg beta rolloff : ℝ) :
    (curveOK (Warmth._build_lut_color_tint n rg gg bg beta rolloff).1
      ∧ (Warmth._build_lut_color_tint n rg gg bg beta rolloff).1.length = n)
    ∧ (curveOK (Warmth._build_lut_color_tint n rg gg bg beta rolloff).2.1
      ∧ (Warmth._build_lut_color_tint n rg gg bg beta rolloff).2.1.length = n)
    ∧ (curveOK (Warmth._build_lut_color_tint n rg gg bg beta rolloff).2.2
      ∧ (Warmth._build_lut_color_tint n rg gg bg beta rolloff).2.2.length = n) := by
  refine ⟨⟨?_, ?_⟩, ⟨?_, ?_⟩, ⟨?_, ?_⟩⟩ <;>
    simp only [tint_fst_eq_clip, tint_snd_eq_clip, tint_thd_eq_clip,
      Lut.monotone_clip_length, listOf_length]
  · exact Lut.monotone_clip_curveOK _
  · exact Lut.monotone_clip_curveOK _
  · exact Lut.monotone_clip_curveOK _

/-- Each channel of _build_brightness_only_lut is a valid curve of length n,
and the three channels are equal. -/
theorem brightness_only_spec (intensity : ℝ) (n : ℕ) (hn : 2 ≤ n) :
    (curveOK (Composer._build_brightness_only_lut intensity n).1
      ∧ (Composer._build_brightness_only_lut intensity n).1.length = n)
    ∧ (Composer._build_brightness_only_lut intensity n).2.1
        = (Composer._build_brightness_only_lut intensity n).1
    ∧ (Composer._build_brightness_only_lut intensity n).2.2
        = (Composer._build_brightness_only_lut intensity n).1 := by
  unfold Composer._build_brightness_only_lut
  cases h : Composer._brightness_params_from_slider intensity with
  | none =>
    exact ⟨⟨Composer.identityLut_curveOK hn, Composer.identityLut_length n⟩, rfl, rfl⟩
  | some p =>
    obtain ⟨g, gw, off, b⟩ := p
    exact ⟨⟨build_lut_fst_curveOK n g gw off b none,
      build_lut_none_fst_length n g gw off b⟩,
      (build_lut_components n g gw off b none).1,
      (build_lut_components n g gw off b none).2⟩

/-- Each channel of _build_warmth_only_luts is a valid curve of length n. -/
theorem warmth_only_spec (strength : ℝ) (n : ℕ) (hn : 2 ≤ n) :
    (curveOK (Composer._build_warmth_only_luts strength n).1
      ∧ (Composer._build_warmth_only_luts strength n).1.length = n)
    ∧ (curveOK (Composer._build_warmth_only_luts strength n).2.1
      ∧ (Composer._build_warmth_only_luts strength n).2.1.length = n)
    ∧ (curveOK (Composer._build_warmth_only_luts strength n).2.2
      ∧ (Composer._build_warmth_only_luts strength n).2.2.length = n) := by
  by_cases h : (if strength < 0 then (0 : ℝ) else if 1 < strength then 1 else strength) ≤ 1e-3
  · simp only [Composer._build_warmth_only_luts, if_pos h]
    exact ⟨⟨Composer.identityLut_curveOK hn, Composer.identityLut_length n⟩,
      ⟨Composer.identityLut_curveOK hn, Composer.identityLut_length n⟩,
      ⟨Composer.identityLut_curveOK hn, Composer.identityLut_length n⟩⟩
  · simp only [Composer._build_warmth_only_luts, if_neg h]
    exact tint_curveOK_and_length n _ _ _ _ _

/-! ## Claim C1 -/

/-- Claim C1: for every intensity and warmth input (clamped internally to
the unit interval, not both at or below 1e-3) and every sample count
n at least 2, each of the three channel curves produced by the compose
pipeline (apply_combined via _compose_luts) has every sample in the unit
interval and is non-decreasing in the sample index. -/
theorem C1_composed_curves_valid (intensity warmth : ℝ) (n : ℕ) (hn : 2 ≤ n)
    (h : ¬(intensity ≤ 1e-3 ∧ warmth ≤ 1e-3)) :
    curveOK (Composer.combinedCurves intensity warmth n).1
    ∧ curveOK (Composer.combinedCurves intensity warmth n).2.1
    ∧ curveOK (Composer.combinedCurves intensity warmth n).2.2 := by
  obtain ⟨⟨hbOK, hbLen⟩, hb21, hb22⟩ := brightness_only_spec intensity n hn
  obtain ⟨⟨ht1, htl1⟩, ⟨ht2, htl2⟩, ⟨ht3, htl3⟩⟩ := warmth_only_spec warmth n hn
  have hn1 : 1 ≤ n := by omega
  simp only [Composer.combinedCurves, Composer._compose_luts]
  refine ⟨?_, ?_, ?_⟩
  · rw [hbLen]
    exact Composer.composeChannel_curveOK hbOK hbLen ht1 htl1 hn1
  · rw [hbLen, hb21]
    exact Composer.composeChannel_curveOK hbOK hbLen ht2 htl2 hn1
  · rw [hbLen, hb22]
    exact Composer.composeChannel_curveOK hbOK hbLen ht3 htl3 hn1

/-- Witness for C1 at intensity 1, warmth 1, n = 2. -/
theorem C1_witness :
    curveOK (Composer.combinedCurves 1 1 2).1
    ∧ curveOK (Composer.combinedCurves 1 1 2).2.1
    ∧ curveOK (Composer.combinedCurves 1 1 2).2.2 :=
  C1_composed_curves_valid 1 1 2 (by norm_num) (by norm_num)

/-! ## Claim C2 -/

/-- Claim C2: apply_combined signals restore-platform-defaults (modelled as
none) exactly when both raw controls are at or below 1e-3, and for any
other pair it builds and composes curves (some of the composed triple),
never signalling restore. -/
theorem C2_restore_sentinel (intensity warmth : ℝ) (n : ℕ) :
    (intensity ≤ 1e-3 ∧ warmth ≤ 1e-3 →
      Composer.apply_combined intensity warmth n = none)
    ∧ (¬(intensity ≤ 1e-3 ∧ warmth ≤ 1e-3) →
      Composer.apply_combined intensity warmth n
        = some (Composer.combinedCurves intensity warmth n)) := by
  constructor
  · intro h
    simp only [Composer.apply_combined, if_pos h]
  · intro h
    simp only [Composer.apply_combined, if_neg h]

/-- Witness for C2: both controls zero restores; intensity 1 builds. -/
theorem C2_witness :
    Composer.apply_combined 0 0 512 = none
    ∧ Composer.apply_combined 1 0 512 = some (Composer.combinedCurves 1 0 512) :=
  ⟨(C2_restore_sentinel 0 0 512).1 (by norm_num),
   (C2_restore_sentinel 1 0 512).2 (by norm_num)⟩

/-! ## Claim C8 -/

theorem peak_clamp_le_one (gr gg gb : ℝ) :
    max (if 1 < max gr (max gg gb)
          then (gr / max gr (max gg gb), gg / max gr (max gg gb), gb / max gr (max gg gb))
          else (gr, gg, gb)).1
      (max (if 1 < max gr (max gg gb)
          then (gr / max gr (max gg gb), gg / max gr (max gg gb), gb / max gr (max gg gb))
          else (gr, gg, gb)).2.1
        (if 1 < max gr (max gg gb)
          then (gr / max gr (max gg gb), gg / max gr (max gg gb), gb / max gr (max gg gb))
          else (gr, gg, gb)).2.2) ≤ 1 := by
  by_cases hm : 1 < max gr (max gg gb)
  · simp only [if_pos hm]
    have hm0 : 0 < max gr (max gg gb) := lt_trans one_pos hm
    refine max_le ?_ (max_le ?_ ?_) <;> rw [div_le_one hm0]
    · exact le_max_left _ _
    · exact le_trans (le_max_left _ _) (le_max_right _ _)
    · exact le_trans (le_max_right _ _) (le_max_right _ _)
  · simp only [if_neg hm]
    push_neg at hm
    exact hm

/-- Unfolding of _kelvin_to_gains at preserve_peak = true, keeping the
channel conversion opaque. -/
theorem kelvin_to_gains_true_eq (k : ℝ) :
    Warmth._kelvin_to_gains k true
      = (if 1 < max ((Warmth._kelvin_to_rgb_channels k).1 / max 1e-6 (Warmth._kelvin_to_rgb_channels 6500).1)
              (max ((Warmth._kelvin_to_rgb_channels k).2.1 / max 1e-6 (Warmth._kelvin_to_rgb_channels 6500).2.1)
                   ((Warmth._kelvin_to_rgb_channels k).2.2 / max 1e-6 (Warmth._kelvin_to_rgb_channels 6500).2.2))
        then ((Warmth._kelvin_to_rgb_channels k).1 / max 1e-6 (Warmth._kelvin_to_rgb_channels 6500).1
                / max ((Warmth._kelvin_to_rgb_channels k).1 / max 1e-6 (Warmth._kelvin_to_rgb_channels 6500).1)
                    (max ((Warmth._kelvin_to_rgb_channels k).2.1 / max 1e-6 (Warmth._kelvin_to_rgb_channels 6500).2.1)
                         ((Warmth._kelvin_to_rgb_channels k).2.2 / max 1e-6 (Warmth._kelvin_to_rgb_channels 6500).2.2)),
              (Warmth._kelvin_to_rgb_channels k).2.1 / max 1e-6 (Warmth._kelvin_to_rgb_channels 6500).2.1
                / max ((Warmth._kelvin_to_rgb_channels k).1 / max 1e-6 (Warmth._kelvin_to_rgb_channels 6500).1)
                    (max ((Warmth._kelvin_to_rgb_channels k).2.1 / max 1e-6 (Warmth._kelvin_to_rgb_channels 6500).2.1)
                         ((Warmth._kelvin_to_rgb_channels k).2.2 / max 1e-6 (Warmth._kelvin_to_rgb_channels 6500).2.2)),
              (Warmth._kelvin_to_rgb_channels k).2.2 / max 1e-6 (Warmth._kelvin_to_rgb_channels 6500).2.2
                / max ((Warmth._kelvin_to_rgb_channels k).1 / max 1e-6 (Warmth._kelvin_to_rgb_channels 6500).1)
                    (max ((Warmth._kelvin_to_rgb_channels k).2.1 / max 1e-6 (Warmth._kelvin_to_rgb_channels 6500).2.1)
                         ((Warmth._kelvin_to_rgb_channels k).2.2 / max 1e-6 (Warmth._kelvin_to_rgb_channels 6500).2.2)))
        else ((Warmth._kelvin_to_rgb_channels k).1 / max 1e-6 (Warmth._kelvin_to_rgb_channels 6500).1,
              (Warmth._kelvin_to_rgb_channels k).2.1 / max 1e-6 (Warmth._kelvin_to_rgb_channels 6500).2.1,
              (Warmth._kelvin_to_rgb_channels k).2.2 / max 1e-6 (Warmth._kelvin_to_rgb_channels 6500).2.2)) := rfl

/-- Claim C8: for every kelvin value, the gains returned by
_kelvin_to_gains with preserve_peak enabled have maximum at most 1,
hence at most 1 plus any nonnegative epsilon. -/
theorem C8_preserve_peak_bound (k : ℝ) :
    max (Warmth._kelvin_to_gains k true).1
      (max (Warmth._kelvin_to_gains k true).2.1
        (Warmth._kelvin_to_gains k true).2.2) ≤ 1 := by
  rw [kelvin_to_gains_true_eq]
  exact peak_clamp_le_one _ _ _

/-! ## Claim C3 -/

/-- Every non-restore result of lut.set_intensity_params lies on one of the
three phase segments phaseA, phaseB, phaseC, with guard_width 0.050. -/
theorem lut_params_eq_phases (i : ℝ) :
    Lut.set_intensity_params i = none
    ∨ (∃ u, Lut.set_intensity_params i
          = some ((Lut.phaseA u).1, 0.050, (Lut.phaseA u).2.1, (Lut.phaseA u).2.2)
        ∨ Lut.set_intensity_params i
          = some ((Lut.phaseB u).1, 0.050, (Lut.phaseB u).2.1, (Lut.phaseB u).2.2)
        ∨ Lut.set_intensity_params i
          = some ((Lut.phaseC u).1, 0.050, (Lut.phaseC u).2.1, (Lut.phaseC u).2.2)) := by
  unfold Lut.set_intensity_params
  by_cases h0 : (if i < 0 then (0:ℝ) else if 1 < i then 1 else i) ≤ 1e-3
  · left
    simp only [if_pos h0]
  · right
    simp only [if_neg h0]
    set s := Lut._remap_slider (if i < 0 then (0:ℝ) else if 1 < i then 1 else i) with hs
    by_cases hA : s ≤ 1/3
    · refine ⟨s / (1/3), Or.inl ?_⟩
      rw [if_pos hA]
      rfl
    · by_cases hB : s ≤ 2/3
      · refine ⟨(s - 1/3) / (2/3 - 1/3), Or.inr (Or.inl ?_)⟩
        rw [if_neg hA, if_pos hB]
        rfl
      · refine ⟨(s - 2/3) / (1 - 2/3), Or.inr (Or.inr ?_)⟩
        rw [if_neg hA, if_neg hB]
        norm_num [Lut.phaseC, Real.rpow_natCast]

/-- Every non-identity result of composer._brightness_params_from_slider
lies on one of the segments cPhaseA, cPhaseB, cPhaseC with guard_width
0.050. -/
theorem composer_params_eq_phases (i : ℝ) :
    Composer._brightness_params_from_slider i = none
    ∨ (∃ u, Composer._brightness_params_from_slider i
          = some ((Composer.cPhaseA u).1, 0.050, (Composer.cPhaseA u).2.1, (Composer.cPhaseA u).2.2)
        ∨ Composer._brightness_params_from_slider i
          = some ((Composer.cPhaseB u).1, 0.050, (Composer.cPhaseB u).2.1, (Composer.cPhaseB u).2.2)
        ∨ Composer._brightness_params_from_slider i
          = some ((Composer.cPhaseC u).1, 0.050, (Composer.cPhaseC u).2.1, (Composer.cPhaseC u).2.2)) := by
  unfold Composer._brightness_params_from_slider
  by_cases h0 : (if i < 0 then (0:ℝ) else if 1 < i then 1 else i) ≤ 1e-3
  · left
    simp only [if_pos h0]
  · right
    simp only [if_neg h0]
    set s := Lut._remap_slider (if i < 0 then (0:ℝ) else if 1 < i then 1 else i) with hs
    by_cases hA : s ≤ 1/3
    · refine ⟨s / (1/3), Or.inl ?_⟩
      rw [if_pos hA]
      rfl
    · by_cases hB : s ≤ 2/3
      · refine ⟨(s - 1/3) / (2/3 - 1/3), Or.inr (Or.inl ?_)⟩
        rw [if_neg hA, if_pos hB]
        rfl
      · refine ⟨(s - 2/3) / (1 - 2/3), Or.inr (Or.inr ?_)⟩
        rw [if_neg hA, if_neg hB]
        norm_num [Composer.cPhaseC, Real.rpow_natCast]

/-- Claim C3 counterexample: in lut.set_intensity, the beta value at the
end of phase B (u = 1) is 0.90 while the beta value at the start of
phase C (u = 0) is 1.00, so the mapping of set_intensity is not continuous
at splitB. -/
theorem C3_counterexample :
    (Lut.phaseB 1).2.2 = 9/10 ∧ (Lut.phaseC 0).2.2 = 1
      ∧ (Lut.phaseB 1).2.2 ≠ (Lut.phaseC 0).2.2 := by
  norm_num [Lut.phaseB, Lut.phaseC]

/-- Claim C3 amended: the composer brightness parameter mapping
(_brightness_params_from_slider) is continuous at both phase boundaries
(end of each phase equals start of the next, in guard, offset and beta);
the lut set_intensity mapping is continuous at splitA in all components and
at splitB in guard and offset, but its beta jumps from 0.90 at the end of
phase B to 1.00 at the start of phase C. -/
theorem C3_phase_continuity_amended :
    (Composer.cPhaseA 1 = Composer.cPhaseB 0 ∧ Composer.cPhaseB 1 = Composer.cPhaseC 0)
    ∧ (Lut.phaseA 1 = Lut.phaseB 0
      ∧ (Lut.phaseB 1).1 = (Lut.phaseC 0).1
      ∧ (Lut.phaseB 1).2.1 = (Lut.phaseC 0).2.1
      ∧ (Lut.phaseB 1).2.2 = 9/10 ∧ (Lut.phaseC 0).2.2 = 1) := by
  norm_num [Lut.phaseA, Lut.phaseB, Lut.phaseC,
    Composer.cPhaseA, Composer.cPhaseB, Composer.cPhaseC, Prod.ext_iff]

/-! ## Evaluations of the perceptual slider remaps -/

theorem lut_remap_zero : Lut._remap_slider 0 = 7/40 := by
  simp only [Lut._remap_slider]
  rw [show (if (0:ℝ) < 0 then (0:ℝ) else if (1:ℝ) < 0 then 1 else 0) = 0 by norm_num]
  rw [Real.zero_rpow (by norm_num)]
  rw [show |(0:ℝ) - 0.5| = 0.5 by rw [show (0:ℝ) - 0.5 = -0.5 by norm_num, abs_neg]; norm_num [abs_of_nonneg]]
  norm_num

theorem lut_remap_one : Lut._remap_slider 1 = 33/40 := by
  simp only [Lut._remap_slider]
  rw [show (if (1:ℝ) < 0 then (0:ℝ) else if (1:ℝ) < 1 then 1 else 1) = 1 by norm_num]
  rw [Real.one_rpow]
  rw [show |(1:ℝ) - 0.5| = 0.5 by norm_num [abs_of_nonneg]]
  norm_num

theorem warmth_remap_zero : Warmth._remap_slider 0 = 7/40 := by
  simp only [Warmth._remap_slider]
  rw [show (if (0:ℝ) < 0 then (0:ℝ) else if (1:ℝ) < 0 then 1 else 0) = 0 by norm_num]
  rw [Real.zero_rpow (by norm_num)]
  rw [show |(0:ℝ) - 0.5| = 0.5 by rw [show (0:ℝ) - 0.5 = -0.5 by norm_num, abs_neg]; norm_num [abs_of_nonneg]]
  norm_num

theorem warmth_remap_one : Warmth._remap_slider 1 = 33/40 := by
  simp only [Warmth._remap_slider]
  rw [show (if (1:ℝ) < 0 then (0:ℝ) else if (1:ℝ) < 1 then 1 else 1) = 1 by norm_num]
  rw [Real.one_rpow]
  rw [show |(1:ℝ) - 0.5| = 0.5 by norm_num [abs_of_nonneg]]
  norm_num

theorem lut_remap_mem (x : ℝ) :
    0 ≤ Lut._remap_slider x ∧ Lut._remap_slider x ≤ 1 := by
  simp only [Lut._remap_slider]
  split_ifs with h1 h2 <;> constructor <;> linarith

/-- The remap of lut.py is not monotone at the top end: the raw value 0.97
maps strictly above the raw value 1. -/
theorem lut_remap_strict_dip : Lut._remap_slider 1 < Lut._remap_slider (97/100) := by
  rw [lut_remap_one]
  simp only [Lut._remap_slider]
  rw [show (if (97:ℝ)/100 < 0 then (0:ℝ) else if 1 < (97:ℝ)/100 then 1 else 97/100) = 97/100
    by norm_num]
  set s := ((97:ℝ)/100) ^ (0.65:ℝ) with hsdef
  have hs1 : s < 1 := Real.rpow_lt_one (by norm_num) (by norm_num) (by norm_num)
  have hs0 : (97:ℝ)/100 < s := by
    have h := Real.rpow_lt_rpow_of_exponent_gt
      (show (0:ℝ) < 97/100 by norm_num) (show (97:ℝ)/100 < 1 by norm_num)
      (show (0.65:ℝ) < 1 by norm_num)
    rwa [Real.rpow_one] at h
  rw [show |s - 0.5| = s - 0.5 from abs_of_nonneg (by linarith)]
  have hy : (33:ℝ)/40 < 0.5 + (s - 0.5) * (1 + 0.35 - 0.35 * 4.0 * (s - 0.5)) := by
    nlinarith [mul_pos (sub_pos.2 hs1) (sub_pos.2 (show (27:ℝ)/28 < s by linarith))]
  have hyge : ¬(0.5 + (s - 0.5) * (1 + 0.35 - 0.35 * 4.0 * (s - 0.5)) < 0) := by
    push_neg
    nlinarith
  rw [if_neg hyge]
  split_ifs with h1
  · linarith
  · exact hy

/-! ## Claim C4 -/

/-- Claim C4 counterexample: the perceptual slider remap does not fix the
endpoints: remap(0) = 0.175 and remap(1) = 0.825, not 0 and 1. -/
theorem C4_counterexample :
    Lut._remap_slider 0 ≠ 0 ∧ Lut._remap_slider 1 ≠ 1 := by
  rw [lut_remap_zero, lut_remap_one]
  norm_num

/-- Claim C4 amended: both slider remaps send 0 to 0.175 and 1 to 0.825
exactly (not 0 and 1); every output lies in the unit interval; and the
remap is not non-decreasing on the unit interval, since the value at 0.97
exceeds the value at 1. -/
theorem C4_remap_endpoints_amended :
    Lut._remap_slider 0 = 7/40 ∧ Lut._remap_slider 1 = 33/40
    ∧ Warmth._remap_slider 0 = 7/40 ∧ Warmth._remap_slider 1 = 33/40
    ∧ (∀ x : ℝ, 0 ≤ Lut._remap_slider x ∧ Lut._remap_slider x ≤ 1)
    ∧ Lut._remap_slider 1 < Lut._remap_slider (97/100) :=
  ⟨lut_remap_zero, lut_remap_one, warmth_remap_zero, warmth_remap_one,
   lut_remap_mem, lut_remap_strict_dip⟩

/-- At raw input one half, the warmth remap (gamma 0.75) is strictly below
the lut remap (gamma 0.65). -/
theorem remap_slider_half_lt :
    Warmth._remap_slider (1/2) < Lut._remap_slider (1/2) := by
  simp only [Warmth._remap_slider, Lut._remap_slider]
  rw [show (if (1:ℝ)/2 < 0 then (0:ℝ) else if 1 < (1:ℝ)/2 then 1 else 1/2) = 1/2 by norm_num]
  set sL := ((1:ℝ)/2) ^ (0.65:ℝ) with hLdef
  set sW := ((1:ℝ)/2) ^ (0.75:ℝ) with hWdef
  have hWL : sW < sL :=
    Real.rpow_lt_rpow_of_exponent_gt (by norm_num) (by norm_num) (by norm_num)
  have hW0 : (1:ℝ)/2 < sW := by
    have h := Real.rpow_lt_rpow_of_exponent_gt
      (show (0:ℝ) < 1/2 by norm_num) (show (1:ℝ)/2 < 1 by norm_num)
      (show (0.75:ℝ) < 1 by norm_num)
    rwa [Real.rpow_one] at h
  have hL71 : sL < 71/100 := by
    have h1 : sL < ((1:ℝ)/2) ^ (0.5:ℝ) :=
      Real.rpow_lt_rpow_of_exponent_gt (by norm_num) (by norm_num) (by norm_num)
    have h2 : (((1:ℝ)/2) ^ (0.5:ℝ)) ^ (2:ℕ) = 1/2 := by
      rw [← Real.rpow_natCast (((1:ℝ)/2) ^ (0.5:ℝ)) 2, ← Real.rpow_mul (by norm_num)]
      norm_num
    have h3 : 0 ≤ ((1:ℝ)/2) ^ (0.5:ℝ) := Real.rpow_nonneg (by norm_num) _
    nlinarith [h1, h2, h3]
  have hL1 : sL < 1 := by linarith
  rw [show |sW - 0.5| = sW - 0.5 from abs_of_nonneg (by norm_num at hW0 ⊢; linarith)]
  rw [show |sL - 0.5| = sL - 0.5 from abs_of_nonneg (by norm_num at hW0 ⊢; linarith)]
  have hyW0 : ¬(0.5 + (sW - 0.5) * (1 + 0.35 - 0.35 * 4.0 * (sW - 0.5)) < 0) := by
    push_neg
    nlinarith
  have hyW1 : ¬(1 < 0.5 + (sW - 0.5) * (1 + 0.35 - 0.35 * 4.0 * (sW - 0.5))) := by
    push_neg
    nlinarith
  have hyL0 : ¬(0.5 + (sL - 0.5) * (1 + 0.35 - 0.35 * 4.0 * (sL - 0.5)) < 0) := by
    push_neg
    nlinarith
  have hyL1 : ¬(1 < 0.5 + (sL - 0.5) * (1 + 0.35 - 0.35 * 4.0 * (sL - 0.5))) := by
    push_neg
    nlinarith
  rw [if_neg hyW0, if_neg hyW1, if_neg hyL0, if_neg hyL1]
  nlinarith [mul_pos (sub_pos.2 hWL)
    (show (0:ℝ) < 1.35 - 1.4 * (sL + sW - 1) by nlinarith)]

/-! ## Claim C9 -/

/-- Claim C9 counterexample: the two slider remaps are not the same
function: at raw input one half they differ (gamma 0.65 in lut.py versus
gamma 0.75 in warmth.py). -/
theorem C9_counterexample :
    Warmth._remap_slider (1/2) ≠ Lut._remap_slider (1/2) :=
  ne_of_lt remap_slider_half_lt

/-- Claim C9 amended: the two builders use the same S curve and clamps but
different gamma pre-emphasis exponents (0.65 for brightness, 0.75 for
warmth); the two remaps agree at the clamped endpoints 0 and 1, but differ
strictly at interior points such as one half. -/
theorem C9_shared_scurve_amended :
    Lut._remap_slider 0 = Warmth._remap_slider 0
    ∧ Lut._remap_slider 1 = Warmth._remap_slider 1
    ∧ Warmth._remap_slider (1/2) < Lut._remap_slider (1/2) := by
  refine ⟨?_, ?_, remap_slider_half_lt⟩
  · rw [lut_remap_zero, warmth_remap_zero]
  · rw [lut_remap_one, warmth_remap_one]

/-! ## Facts about the smoothstep -/

theorem smoothstep_of_le {e0 e1 x : ℝ} (h : x ≤ e0) :
    Lut._smoothstep e0 e1 x = 0 := by
  simp only [Lut._smoothstep, if_pos h]

theorem smoothstep_of_ge {e0 e1 x : ℝ} (h0 : ¬(x ≤ e0)) (h1 : e1 ≤ x) :
    Lut._smoothstep e0 e1 x = 1 := by
  simp only [Lut._smoothstep, if_neg h0, if_pos h1]

theorem smoothstep_mem (e0 e1 x : ℝ) :
    0 ≤ Lut._smoothstep e0 e1 x ∧ Lut._smoothstep e0 e1 x ≤ 1 := by
  simp only [Lut._smoothstep]
  split_ifs with h1 h2
  · norm_num
  · norm_num
  · push_neg at h1 h2
    have he : 0 < e1 - e0 := by linarith
    have ht0 : 0 ≤ (x - e0) / (e1 - e0) := div_nonneg (by linarith) (by linarith)
    have ht1 : (x - e0) / (e1 - e0) ≤ 1 := by
      rw [div_le_one he]
      linarith
    constructor
    · nlinarith
    · nlinarith [sq_nonneg (1 - (x - e0) / (e1 - e0))]

theorem warmth_smoothstep_eq : Warmth._smoothstep = Lut._smoothstep := rfl

/-! ## Bounds for the subtractive guarded curve samples -/

theorem buildY_nonneg (g0 g1 off x : ℝ) (hx0 : 0 ≤ x) :
    0 ≤ (1 - Lut._smoothstep g0 g1 x) * x
      + Lut._smoothstep g0 g1 x * max 0 (x - off) := by
  obtain ⟨hw0, hw1⟩ := smoothstep_mem g0 g1 x
  have h1 : 0 ≤ (1 - Lut._smoothstep g0 g1 x) * x :=
    mul_nonneg (by linarith) hx0
  have h2 : 0 ≤ Lut._smoothstep g0 g1 x * max 0 (x - off) :=
    mul_nonneg hw0 (le_max_left 0 _)
  linarith

theorem buildY_le {g0 g1 off x : ℝ} (hg : g0 ≤ g1) (hoff0 : 0 ≤ off)
    (hoff1 : off ≤ 1) (hg1 : g1 ≤ 1 - off) (hx0 : 0 ≤ x) (hx1 : x ≤ 1) :
    (1 - Lut._smoothstep g0 g1 x) * x
      + Lut._smoothstep g0 g1 x * max 0 (x - off) ≤ 1 - off := by
  obtain ⟨hw0, hw1⟩ := smoothstep_mem g0 g1 x
  have hsub_le_x : max 0 (x - off) ≤ x := max_le hx0 (by linarith)
  have hsub_le : max 0 (x - off) ≤ 1 - off := max_le (by linarith) (by linarith)
  rcases le_or_lt x g1 with hc | hc
  · nlinarith [mul_le_mul_of_nonneg_left hsub_le_x hw0]
  · have hne : ¬(x ≤ g0) := by linarith
    rw [smoothstep_of_ge hne (le_of_lt hc)]
    ring_nf
    linarith

/-! ## Identity-base composition (claims C6 and C7) -/

theorem brightness_params_none {i : ℝ} (hi : i ≤ 1e-3) :
    Composer._brightness_params_from_slider i = none := by
  unfold Composer._brightness_params_from_slider
  have hcl : (if i < 0 then (0:ℝ) else if 1 < i then 1 else i) ≤ 1e-3 := by
    split_ifs with h1 h2
    · norm_num
    · linarith
    · exact hi
  rw [if_pos hcl]

theorem brightness_only_identity {i : ℝ} (hi : i ≤ 1e-3) (n : ℕ) :
    Composer._build_brightness_only_lut i n
      = (Composer.identityLut n, Composer.identityLut n, Composer.identityLut n) := by
  unfold Composer._build_brightness_only_lut
  rw [brightness_params_none hi]

theorem warmth_only_identity {w : ℝ} (hw : w ≤ 1e-3) (n : ℕ) :
    Composer._build_warmth_only_luts w n
      = (Composer.identityLut n, Composer.identityLut n, Composer.identityLut n) := by
  unfold Composer._build_warmth_only_luts
  have hcl : (if w < 0 then (0:ℝ) else if 1 < w then 1 else w) ≤ 1e-3 := by
    split_ifs with h1 h2
    · norm_num
    · linarith
    · exact hw
  rw [if_pos hcl]

theorem identityLut_getD {n : ℕ} {i : ℕ} (h : i < n) :
    (Composer.identityLut n).getD i 0 = (i : ℝ) / ((n : ℝ) - 1) :=
  listOf_getD n _ i h

theorem composeChannel_identity_base {n : ℕ} (hn : 2 ≤ n) {t : List ℝ}
    (htl : t.length = n) :
    Composer.composeChannel n (Composer.identityLut n) t = t := by
  have hn1 : (1 : ℝ) ≤ (n : ℝ) - 1 := by
    have : (2 : ℝ) ≤ (n : ℝ) := by exact_mod_cast hn
    linarith
  have hne : ((n : ℝ) - 1) ≠ 0 := by linarith
  apply List.ext_getElem
  · rw [Composer.composeChannel_length, htl]
  · intro i h1 h2
    rw [Composer.composeChannel_length] at h1
    have hgetl : (Composer.composeChannel n (Composer.identityLut n) t)[i]
        = Composer.sampleAt n t ((Composer.identityLut n).getD i 0) := by
      have := listOf_getElem n
        (fun j => Composer.sampleAt n t ((Composer.identityLut n).getD j 0)) i
      exact this (by simpa [listOf_length] using h1)
    rw [hgetl, identityLut_getD h1]
    unfold Composer.sampleAt
    have hx0 : 0 ≤ (i : ℝ) / ((n : ℝ) - 1) :=
      div_nonneg (Nat.cast_nonneg i) (by linarith)
    have hx1 : (i : ℝ) / ((n : ℝ) - 1) ≤ 1 := by
      rw [div_le_one (by linarith)]
      have : (i : ℝ) + 1 ≤ (n : ℝ) := by exact_mod_cast h1
      linarith
    rw [show max 0 (min 1 ((i : ℝ) / ((n : ℝ) - 1))) = (i : ℝ) / ((n : ℝ) - 1) by
      rw [min_eq_right hx1, max_eq_right hx0]]
    rw [div_mul_cancel₀ _ hne, pyRound_natCast, Int.toNat_natCast]
    exact List.getD_eq_getElem t 0 (by omega)

/-! ## Claim C6 -/

/-- Claim C6: with warmth above the 1e-3 threshold and intensity at or
below it, the composed curve equals the pure warmth curve exactly, channel
by channel; and composing any tint curve of length n with the identity
base curve of the same n returns the tint curve unchanged. -/
theorem C6_warmth_passthrough (intensity warmth : ℝ) (n : ℕ) (hn : 2 ≤ n)
    (hi : intensity ≤ 1e-3) (hw : 1e-3 < warmth) :
    Composer.combinedCurves intensity warmth n
        = Composer._build_warmth_only_luts warmth n
    ∧ (∀ t : List ℝ, t.length = n →
        Composer.composeChannel n (Composer.identityLut n) t = t) := by
  obtain ⟨⟨_, htl1⟩, ⟨_, htl2⟩, ⟨_, htl3⟩⟩ := warmth_only_spec warmth n hn
  constructor
  · unfold Composer.combinedCurves Composer._compose_luts
    rw [brightness_only_identity hi n]
    simp only [Composer.identityLut_length]
    refine Prod.ext ?_ (Prod.ext ?_ ?_)
    · exact composeChannel_identity_base hn htl1
    · exact composeChannel_identity_base hn htl2
    · exact composeChannel_identity_base hn htl3
  · intro t htl
    exact composeChannel_identity_base hn htl

/-- Witness for C6 at intensity 0, warmth 1, n = 4. -/
theorem C6_witness :
    Composer.combinedCurves 0 1 4 = Composer._build_warmth_only_luts 1 4
    ∧ (∀ t : List ℝ, t.length = 4 →
        Composer.composeChannel 4 (Composer.identityLut 4) t = t) :=
  C6_warmth_passthrough 0 1 4 (by norm_num) (by norm_num) (by norm_num)

/-! ## Claim C7 (amended form) -/

/-- Claim C7 amended: with intensity above the threshold and warmth at or
below it, the warmth side contributes the identity curve, and each sample
of the composed curve equals the corresponding brightness sample snapped to
the uniform grid j / (n - 1) by round-to-nearest; it is therefore within
1 / (2 (n - 1)) of the brightness curve, but not equal to it in general.
All three composed channels coincide. -/
theorem C7_quantized_passthrough_amended (intensity warmth : ℝ) (n : ℕ)
    (hn : 2 ≤ n) (hi : 1e-3 < intensity) (hw : warmth ≤ 1e-3) :
    (∀ j : ℕ, j < n →
      (Composer.combinedCurves intensity warmth n).1.getD j 0
          = ((pyRound ((Composer._build_brightness_only_lut intensity n).1.getD j 0
              * ((n : ℝ) - 1)) : ℤ) : ℝ) / ((n : ℝ) - 1)
        ∧ |(Composer.combinedCurves intensity warmth n).1.getD j 0
            - (Composer._build_brightness_only_lut intensity n).1.getD j 0|
          ≤ 1 / (2 * ((n : ℝ) - 1)))
    ∧ (Composer.combinedCurves intensity warmth n).2.1
        = (Composer.combinedCurves intensity warmth n).1
    ∧ (Composer.combinedCurves intensity warmth n).2.2
        = (Composer.combinedCurves intensity warmth n).1 := by
  obtain ⟨⟨hbOK, hbLen⟩, hb21, hb22⟩ := brightness_only_spec intensity n hn
  have hcomb : Composer.combinedCurves intensity warmth n
      = (Composer.composeChannel n (Composer._build_brightness_only_lut intensity n).1
          (Composer.identityLut n),
         Composer.composeChannel n (Composer._build_brightness_only_lut intensity n).1
          (Composer.identityLut n),
         Composer.composeChannel n (Composer._build_brightness_only_lut intensity n).1
          (Composer.identityLut n)) := by
    simp only [Composer.combinedCurves, Composer._compose_luts]
    rw [warmth_only_identity hw n, hbLen, hb21, hb22]
  have hn1 : (1 : ℝ) ≤ (n : ℝ) - 1 := by
    have : (2 : ℝ) ≤ (n : ℝ) := by exact_mod_cast hn
    linarith
  have hne : ((n : ℝ) - 1) ≠ 0 := by linarith
  have hcpos : (0 : ℝ) < (n : ℝ) - 1 := by linarith
  refine ⟨?_, by rw [hcomb], by rw [hcomb]⟩
  intro j hj
  rw [hcomb]
  set y := (Composer._build_brightness_only_lut intensity n).1.getD j 0 with hydef
  have hymem : 0 ≤ y ∧ y ≤ 1 := by
    have hjl : j < (Composer._build_brightness_only_lut intensity n).1.length := by
      rw [hbLen]; exact hj
    rw [hydef, List.getD_eq_getElem _ _ hjl]
    exact hbOK.1 _ (List.getElem_mem hjl)
  have hchan : (Composer.composeChannel n
      (Composer._build_brightness_only_lut intensity n).1 (Composer.identityLut n)).getD j 0
      = Composer.sampleAt n (Composer.identityLut n) y := by
    unfold Composer.composeChannel
    rw [listOf_getD _ _ _ hj]
  have hclamp : max 0 (min 1 y) = y := by
    rw [min_eq_right hymem.2, max_eq_right hymem.1]
  have hv0 : 0 ≤ y * ((n : ℝ) - 1) := mul_nonneg hymem.1 (by linarith)
  have hvle : y * ((n : ℝ) - 1) ≤ (((n : ℤ) - 1 : ℤ) : ℝ) := by
    push_cast
    nlinarith [hymem.2]
  have hjj0 : 0 ≤ pyRound (y * ((n : ℝ) - 1)) := pyRound_nonneg hv0
  have hjjle : pyRound (y * ((n : ℝ) - 1)) ≤ (n : ℤ) - 1 := pyRound_le_of_le_int hvle
  have hsamp : Composer.sampleAt n (Composer.identityLut n) y
      = ((pyRound (y * ((n : ℝ) - 1)) : ℤ) : ℝ) / ((n : ℝ) - 1) := by
    unfold Composer.sampleAt
    rw [hclamp, identityLut_getD (show (pyRound (y * ((n : ℝ) - 1))).toNat < n by omega)]
    congr 1
    exact_mod_cast congrArg (Int.cast : ℤ → ℝ) (Int.toNat_of_nonneg hjj0)
  refine ⟨by rw [hchan, hsamp], ?_⟩
  rw [hchan, hsamp]
  have h1 : ((pyRound (y * ((n : ℝ) - 1)) : ℤ) : ℝ) / ((n : ℝ) - 1) - y
      = (((pyRound (y * ((n : ℝ) - 1)) : ℤ) : ℝ) - y * ((n : ℝ) - 1)) / ((n : ℝ) - 1) := by
    field_simp
    ring
  rw [h1, abs_div, abs_of_pos hcpos]
  rw [div_le_div_iff hcpos (by positivity)]
  nlinarith [abs_pyRound_sub_le (y * ((n : ℝ) - 1))]

/-- Witness for the amended C7 at intensity 1, warmth 0, n = 2, sample 1. -/
theorem C7_witness :
    (Composer.combinedCurves 1 0 2).1.getD 1 0
        = ((pyRound ((Composer._build_brightness_only_lut 1 2).1.getD 1 0
            * ((2 : ℝ) - 1)) : ℤ) : ℝ) / ((2 : ℝ) - 1)
      ∧ |(Composer.combinedCurves 1 0 2).1.getD 1 0
          - (Composer._build_brightness_only_lut 1 2).1.getD 1 0|
        ≤ 1 / (2 * ((2 : ℝ) - 1)) :=
  (C7_quantized_passthrough_amended 1 0 2 (by norm_num) (by norm_num)
    (by norm_num)).1 1 (by norm_num)

/-! ## Concrete parameter values at intensity 1 -/

theorem set_intensity_params_one :
    Lut.set_intensity_params 1 = some (991/2000, 1/20, 691/2000, 629/800) := by
  simp only [Lut.set_intensity_params]
  rw [show (if (1:ℝ) < 0 then (0:ℝ) else if (1:ℝ) < 1 then 1 else 1) = 1 by norm_num]
  rw [if_neg (by norm_num : ¬(1:ℝ) ≤ 1e-3)]
  rw [lut_remap_one]
  rw [if_neg (by norm_num : ¬(33:ℝ)/40 ≤ 1/3), if_neg (by norm_num : ¬(33:ℝ)/40 ≤ 2/3)]
  norm_num [Prod.ext_iff, Real.rpow_natCast]

theorem composer_params_one :
    Composer._brightness_params_from_slider 1
      = some (991/2000, 1/20, 691/2000, 587/800) := by
  simp only [Composer._brightness_params_from_slider]
  rw [show (if (1:ℝ) < 0 then (0:ℝ) else if (1:ℝ) < 1 then 1 else 1) = 1 by norm_num]
  rw [if_neg (by norm_num : ¬(1:ℝ) ≤ 1e-3)]
  rw [lut_remap_one]
  rw [if_neg (by norm_num : ¬(33:ℝ)/40 ≤ 1/3), if_neg (by norm_num : ¬(33:ℝ)/40 ≤ 2/3)]
  norm_num [Prod.ext_iff, Real.rpow_natCast]

/-! ## Head and last sample of the intensity-1 brightness curve -/

theorem C5_build_eq {n : ℕ} (b : ℝ) (hb0 : 0 ≤ b) (hb1 : b ≤ 1) (hbne : b ≠ 1) :
    (Lut.build_lut_subtractive_guarded n (991/2000) (1/20) (691/2000) b none).1
      = Lut._monotone_clip (listOf n (fun i =>
          ((1 - Lut._smoothstep (991/2000) (1091/2000) ((i:ℝ)/((n:ℝ)-1)))
              * ((i:ℝ)/((n:ℝ)-1))
            + Lut._smoothstep (991/2000) (1091/2000) ((i:ℝ)/((n:ℝ)-1))
              * max 0 ((i:ℝ)/((n:ℝ)-1) - 691/2000)) * b)) := by
  simp only [Lut.build_lut_subtractive_guarded]
  rw [show max (0:ℝ) (min 1 (991/2000)) = 991/2000 by norm_num]
  rw [show max (0.002:ℝ) (1/20) = 1/20 by norm_num]
  rw [show max (991/2000:ℝ) (min 0.999 (991/2000 + 1/20)) = 1091/2000 by norm_num]
  rw [show max (0:ℝ) (min 1 (691/2000)) = 691/2000 by norm_num]
  rw [show max (0:ℝ) (min 1 b) = b by rw [min_eq_right hb1, max_eq_right hb0]]
  rw [if_neg hbne]
  rw [listOf_map]

theorem C5_curve_head_last {n : ℕ} (hn : 2 ≤ n) :
    (Lut.build_lut_subtractive_guarded n (991/2000) (1/20) (691/2000) (629/800) none).1.headD 0
        = 0
    ∧ (Lut.build_lut_subtractive_guarded n (991/2000) (1/20) (691/2000) (629/800) none).1.getLastD 0
        = (1 - 691/2000) * (629/800) := by
  have hb : (0:ℝ) ≤ 629/800 ∧ (629:ℝ)/800 ≤ 1 ∧ (629:ℝ)/800 ≠ 1 := by norm_num
  rw [C5_build_eq (629/800) hb.1 hb.2.1 hb.2.2]
  have hn1 : (1 : ℝ) ≤ (n : ℝ) - 1 := by
    have : (2 : ℝ) ≤ (n : ℝ) := by exact_mod_cast hn
    linarith
  have hne : ((n : ℝ) - 1) ≠ 0 := by linarith
  set F := fun i : ℕ =>
    ((1 - Lut._smoothstep (991/2000) (1091/2000) ((i:ℝ)/((n:ℝ)-1)))
        * ((i:ℝ)/((n:ℝ)-1))
      + Lut._smoothstep (991/2000) (1091/2000) ((i:ℝ)/((n:ℝ)-1))
        * max 0 ((i:ℝ)/((n:ℝ)-1) - 691/2000)) * (629/800) with hF
  have hx01 : ∀ i : ℕ, i < n → 0 ≤ (i:ℝ)/((n:ℝ)-1) ∧ (i:ℝ)/((n:ℝ)-1) ≤ 1 := by
    intro i hi
    constructor
    · exact div_nonneg (Nat.cast_nonneg i) (by linarith)
    · rw [div_le_one (by linarith)]
      have : (i : ℝ) + 1 ≤ (n : ℝ) := by exact_mod_cast hi
      linarith
  constructor
  · obtain ⟨m, hm⟩ : ∃ m, n = m + 1 := ⟨n - 1, by omega⟩
    rw [hm, listOf_succ_cons, monotone_clip_headD]
    have hF0 : F 0 = 0 := by
      rw [hF]
      simp only [Nat.cast_zero, zero_div]
      rw [smoothstep_of_le (by norm_num : (0:ℝ) ≤ 991/2000)]
      norm_num
    rw [hF0, Lut.clamp01_of_mem (le_refl 0) (by norm_num)]
  · apply monotone_clip_getLastD (listOf_ne_nil (by omega) F)
    · intro a ha
      obtain ⟨i, hi, rfl⟩ := listOf_mem ha
      obtain ⟨hx0, hx1⟩ := hx01 i hi
      have hle : F i ≤ (1 - 691/2000) * (629/800) := by
        rw [hF]
        have h1 := @buildY_le (991/2000) (1091/2000) (691/2000) ((i:ℝ)/((n:ℝ)-1))
          (by norm_num) (by norm_num) (by norm_num) (by norm_num) hx0 hx1
        nlinarith
      exact Lut.clamp01_le_of_le hle (by norm_num)
    · have hlast : (listOf n F).getLastD 0 = F (n - 1) := listOf_getLastD (by omega) F
      rw [hlast]
      have hxlast : ((n - 1 : ℕ) : ℝ)/((n:ℝ)-1) = 1 := by
        rw [Nat.cast_sub (by omega)]
        push_cast
        rw [div_self hne]
      have hFlast : F (n - 1) = (1 - 691/2000) * (629/800) := by
        rw [hF]
        simp only [hxlast]
        rw [smoothstep_of_ge (by norm_num : ¬((1:ℝ) ≤ 991/2000)) (by norm_num : (1091:ℝ)/2000 ≤ 1)]
        norm_num
      rw [hFlast, Lut.clamp01_of_mem (by norm_num) (by norm_num)]

/-! ## Claim C5 -/

/-- Claim C5 counterexample: at intensity 1 the derived parameters are not
(guard, width, offset, beta) = (0.38, 0.05, 0.44, 0.55); because the remap
sends 1 to 0.825, phase C is entered with u = 0.475, giving guard 0.4955,
offset 0.3455 and beta 0.78625. -/
theorem C5_counterexample :
    Lut.set_intensity_params 1 ≠ some (0.38, 0.05, 0.44, 0.55) := by
  rw [set_intensity_params_one]
  intro h
  have h2 := Option.some.inj h
  rw [Prod.ext_iff] at h2
  norm_num at h2

/-- Claim C5 amended: for intensity 1 the brightness builder lands in
phase C with u = 19/40 = 0.475 (not u = 1), producing guard = 0.4955,
offset = 0.3455 and beta = 0.78625; the resulting curve at n = 512 has
sample 0 exactly at 0 and its last sample exactly at (1 - offset) * beta. -/
theorem C5_nuclear_amended :
    Lut.set_intensity_params 1
        = some ((Lut.phaseC (19/40)).1, 1/20, (Lut.phaseC (19/40)).2.1,
            (Lut.phaseC (19/40)).2.2)
    ∧ Lut.phaseC (19/40) = (991/2000, 691/2000, 629/800)
    ∧ (∃ c, Lut.set_intensity 1 512 = some c
        ∧ c.1.headD 0 = 0
        ∧ c.1.getLastD 0 = (1 - 691/2000) * (629/800)) := by
  refine ⟨?_, ?_, ?_⟩
  · rw [set_intensity_params_one]
    norm_num [Lut.phaseC, Prod.ext_iff]
  · norm_num [Lut.phaseC, Prod.ext_iff]
  · refine ⟨Lut.build_lut_subtractive_guarded 512 (991/2000) (1/20) (691/2000) (629/800) none,
      ?_, (C5_curve_head_last (by norm_num)).1, (C5_curve_head_last (by norm_num)).2⟩
    simp only [Lut.set_intensity, set_intensity_params_one]

/-! ## Claim C7 counterexample: concrete evaluation at n = 2 -/

theorem pyRound_eq_zero {x : ℝ} (h0 : 0 ≤ x) (h1 : x < 1/2) : pyRound x = 0 := by
  have hfr : Int.fract x = x := Int.fract_eq_self.2 ⟨h0, by linarith⟩
  have hfl : ⌊x⌋ = 0 := by
    rw [Int.floor_eq_zero_iff]
    exact ⟨h0, by linarith⟩
  unfold pyRound
  rw [hfr, hfl, if_pos h1]

theorem brightness_one_two_eval :
    (Composer._build_brightness_only_lut 1 2).1 = [0, 768383/1600000] := by
  simp only [Composer._build_brightness_only_lut, composer_params_one]
  rw [C5_build_eq (587/800) (by norm_num) (by norm_num) (by norm_num)]
  have hrange : List.range 2 = [0, 1] := rfl
  unfold listOf
  rw [hrange]
  simp only [List.map_cons, List.map_nil]
  simp only [Lut._monotone_clip, List.map_cons, List.map_nil, Lut.monoPass]
  rw [show ((0:ℕ):ℝ)/(((2:ℕ):ℝ)-1) = 0 by norm_num]
  rw [show ((1:ℕ):ℝ)/(((2:ℕ):ℝ)-1) = 1 by norm_num]
  rw [smoothstep_of_le (by norm_num : (0:ℝ) ≤ 991/2000)]
  rw [smoothstep_of_ge (by norm_num : ¬((1:ℝ) ≤ 991/2000)) (by norm_num : (1091:ℝ)/2000 ≤ 1)]
  rw [show ((1 - (0:ℝ)) * 0 + 0 * max 0 (0 - 691/2000)) * (587/800) = 0 by norm_num]
  rw [show ((1 - (1:ℝ)) * 1 + 1 * max 0 (1 - 691/2000)) * (587/800) = 768383/1600000 by
    rw [show max (0:ℝ) (1 - 691/2000) = 1 - 691/2000 by norm_num]
    norm_num]
  rw [Lut.clamp01_of_mem (le_refl 0) (by norm_num),
    Lut.clamp01_of_mem (by norm_num) (by norm_num)]
  rw [max_eq_right (by norm_num : (0:ℝ) ≤ 768383/1600000)]

theorem combined_one_zero_two_eval :
    (Composer.combinedCurves 1 0 2).1 = [0, 0] := by
  simp only [Composer.combinedCurves, Composer._compose_luts]
  rw [warmth_only_identity (by norm_num : (0:ℝ) ≤ 1e-3) 2, brightness_one_two_eval]
  show Composer.composeChannel 2 [0, 768383/1600000] (Composer.identityLut 2) = [0, 0]
  unfold Composer.composeChannel
  have hrange : List.range 2 = [0, 1] := rfl
  unfold listOf
  rw [hrange]
  simp only [List.map_cons, List.map_nil, List.getD_cons_zero, List.getD_cons_succ]
  unfold Composer.sampleAt
  rw [show max (0:ℝ) (min 1 0) = 0 by norm_num]
  rw [show max (0:ℝ) (min 1 (768383/1600000)) = 768383/1600000 by norm_num]
  rw [show (0:ℝ) * (((2:ℕ):ℝ) - 1) = 0 by norm_num]
  rw [show (768383/1600000:ℝ) * (((2:ℕ):ℝ) - 1) = 768383/1600000 by norm_num]
  rw [pyRound_eq_zero (le_refl (0:ℝ)) (by norm_num)]
  rw [pyRound_eq_zero (by norm_num : (0:ℝ) ≤ 768383/1600000) (by norm_num)]
  simp only [Int.toNat_zero]
  rw [identityLut_getD (by norm_num : (0:ℕ) < 2)]
  norm_num

/-- Claim C7 counterexample: at intensity 1, warmth 0, n = 2, the composed
curve is [0, 0] while the pure brightness curve is [0, 0.48024], so the
composed curve does not equal the brightness curve exactly. -/
theorem C7_counterexample :
    (Composer.combinedCurves 1 0 2).1 ≠ (Composer._build_brightness_only_lut 1 2).1 := by
  rw [combined_one_zero_two_eval, brightness_one_two_eval]
  intro h
  simp only [List.cons.injEq] at h
  norm_num at h

/-! ## Claim C10: tint channel bounds -/

theorem monotone_clip_le_bound {ys : List ℝ} {m : ℝ}
    (h : ∀ a ∈ ys, Lut.clamp01 a ≤ m) :
    ∀ a ∈ Lut._monotone_clip ys, a ≤ m := by
  cases ys with
  | nil => intro a ha; simp [Lut._monotone_clip] at ha
  | cons y l =>
    intro a ha
    simp only [Lut._monotone_clip, List.mem_cons] at ha
    rcases ha with rfl | ha
    · exact h y (by simp)
    · refine Lut.monoPass_le_bound (h y (by simp)) ?_ a ha
      intro z hz
      obtain ⟨w, hw, rfl⟩ := List.mem_map.1 hz
      exact h w (by simp [hw])

theorem clamp01_of_neg {y : ℝ} (h : y < 0) : Lut.clamp01 y = 0 := by
  simp [Lut.clamp01, if_pos h]

/-- The highlight shoulder bound: over the unit interval the identity
times the shoulder factor never exceeds 0.93 (the 7 percent pull at x = 1
dominates the whole band, with the interior maximum near x = 0.942 staying
just below 0.93). -/
theorem shoulder_poly_le {x : ℝ} (hx0 : 0 ≤ x) (hx1 : x ≤ 1) :
    x * (1 - 0.07 * Lut._smoothstep (1 - 8/100) 1 x) ≤ 93/100 := by
  rcases le_or_lt x (1 - 8/100) with hc | hc
  · obtain ⟨hs0, hs1⟩ := smoothstep_mem (1 - 8/100) 1 x
    nlinarith [mul_nonneg hx0 hs0]
  · rcases lt_or_le x 1 with hxlt | hxge
    · have hstep : Lut._smoothstep (1 - 8/100) 1 x
          = ((x - (1 - 8/100))/(1 - (1 - 8/100))) * ((x - (1 - 8/100))/(1 - (1 - 8/100)))
            * (3 - 2*((x - (1 - 8/100))/(1 - (1 - 8/100)))) := by
        simp only [Lut._smoothstep, if_neg (by linarith : ¬(x ≤ 1 - 8/100)),
          if_neg (by linarith : ¬((1:ℝ) ≤ x))]
      have ht : (x - (1 - 8/100))/(1 - (1 - 8/100)) = (25*x - 23)/2 := by
        rw [show (1:ℝ) - (1 - 8/100) = 2/25 by norm_num]
        rw [div_eq_div_iff (by norm_num) (by norm_num)]
        ring
      rw [hstep, ht]
      have htpos : (0:ℝ) ≤ (25*x - 23)/2 := by
        have : (23:ℝ)/25 < x := by linarith
        linarith
      have ht1 : (25*x - 23)/2 ≤ 1 := by linarith
      have hquad : (0:ℝ) ≤ 1232*((25*x - 23)/2)^2 - 700*((25*x - 23)/2) + 100 := by
        nlinarith [sq_nonneg (2464*((25*x - 23)/2) - 700)]
      have hcube : (0:ℝ) ≤ ((25*x - 23)/2)^3 := pow_nonneg htpos 3
      have hR : (0:ℝ) ≤ 112*((25*x - 23)/2)^3 + 1232*((25*x - 23)/2)^2
          - 700*((25*x - 23)/2) + 100 := by linarith
      have hprod : (0:ℝ) ≤ (1 - (25*x - 23)/2)
          * (112*((25*x - 23)/2)^3 + 1232*((25*x - 23)/2)^2
            - 700*((25*x - 23)/2) + 100) :=
        mul_nonneg (by linarith) hR
      nlinarith [hprod]
    · have hx : x = 1 := le_antisymm hx1 hxge
      rw [hx, smoothstep_of_ge (by norm_num) (by norm_num)]
      norm_num

theorem tintChannel_eq (gain beta rolloff x : ℝ) :
    Warmth.tintChannel gain beta rolloff x
      = min 1 (x * gain) * (1 - 0.07 * Lut._smoothstep (1 - rolloff) 1 x) * beta := by
  simp only [Warmth.tintChannel, warmth_smoothstep_eq]
  split_ifs with h
  · rw [h, mul_one]
  · rfl

theorem tint_channel_bounds {n : ℕ} (hn : 2 ≤ n) {g beta : ℝ}
    (hg0 : 0 ≤ g) (hg1 : g ≤ 1) (hb0 : 0 ≤ beta) (hb1 : beta ≤ 1) :
    (∀ a ∈ Lut._monotone_clip (listOf n (fun i =>
        Warmth.tintChannel g beta (8/100) ((i:ℝ)/((n:ℝ)-1)))), a ≤ 93/100)
    ∧ (Lut._monotone_clip (listOf n (fun i =>
        Warmth.tintChannel g beta (8/100) ((i:ℝ)/((n:ℝ)-1)))) ).getLastD 0
      = g * (93/100) * beta := by
  have hn1 : (1 : ℝ) ≤ (n : ℝ) - 1 := by
    have : (2 : ℝ) ≤ (n : ℝ) := by exact_mod_cast hn
    linarith
  have hne : ((n : ℝ) - 1) ≠ 0 := by linarith
  have hx01 : ∀ i : ℕ, i < n → 0 ≤ (i:ℝ)/((n:ℝ)-1) ∧ (i:ℝ)/((n:ℝ)-1) ≤ 1 := by
    intro i hi
    constructor
    · exact div_nonneg (Nat.cast_nonneg i) (by linarith)
    · rw [div_le_one (by linarith)]
      have : (i : ℝ) + 1 ≤ (n : ℝ) := by exact_mod_cast hi
      linarith
  have hval : ∀ i : ℕ, i < n →
      Warmth.tintChannel g beta (8/100) ((i:ℝ)/((n:ℝ)-1)) ≤ g * (93/100) * beta := by
    intro i hi
    obtain ⟨hx0, hx1⟩ := hx01 i hi
    rw [tintChannel_eq]
    have hxg1 : (i:ℝ)/((n:ℝ)-1) * g ≤ 1 := mul_le_one hx1 hg0 hg1
    rw [min_eq_right hxg1]
    have hsh := shoulder_poly_le hx0 hx1
    obtain ⟨hs0, hs1⟩ := smoothstep_mem (1 - 8/100) 1 ((i:ℝ)/((n:ℝ)-1))
    nlinarith [mul_nonneg hg0 hb0, mul_nonneg hx0 hs0]
  have hm0 : 0 ≤ g * (93/100) * beta := by positivity
  constructor
  · apply monotone_clip_le_bound
    intro a ha
    obtain ⟨i, hi, rfl⟩ := listOf_mem ha
    exact Lut.clamp01_le_of_le (le_trans (hval i hi) (by nlinarith)) (by norm_num)
  · apply monotone_clip_getLastD (listOf_ne_nil (by omega) _)
    · intro a ha
      obtain ⟨i, hi, rfl⟩ := listOf_mem ha
      exact Lut.clamp01_le_of_le (hval i hi) hm0
    · rw [listOf_getLastD (by omega)]
      have hxlast : ((n - 1 : ℕ) : ℝ)/((n:ℝ)-1) = 1 := by
        rw [Nat.cast_sub (by omega)]
        push_cast
        rw [div_self hne]
      rw [tintChannel_eq, hxlast]
      rw [smoothstep_of_ge (by norm_num : ¬((1:ℝ) ≤ 1 - 8/100)) (le_refl 1)]
      rw [one_mul, min_eq_right hg1]
      rw [show (1:ℝ) - 0.07 * 1 = 93/100 by norm_num]
      exact Lut.clamp01_of_mem (by positivity) (by nlinarith)

/-- Claim C10 counterexample: with r_gain = -1 (which satisfies gain at
most 1) and beta = 1, the clipped red channel at n = 2 is [0, 0], whose
last sample 0 is not gain * 0.93 * beta = -0.93; so the claim as stated,
without nonnegativity of the gains, is false. -/
theorem C10_counterexample :
    (Warmth._build_lut_color_tint 2 (-1) (-1) (-1) 1 (8/100)).1.getLastD 0 = 0
    ∧ ((-1:ℝ) * (93/100) * 1 ≠ 0) := by
  constructor
  · rw [tint_fst_eq_clip]
    have hrange : List.range 2 = [0, 1] := rfl
    unfold listOf
    rw [hrange]
    simp only [List.map_cons, List.map_nil, tintChannel_eq]
    rw [show ((0:ℕ):ℝ)/(((2:ℕ):ℝ)-1) = 0 by norm_num]
    rw [show ((1:ℕ):ℝ)/(((2:ℕ):ℝ)-1) = 1 by norm_num]
    rw [smoothstep_of_le (by norm_num : (0:ℝ) ≤ 1 - 8/100)]
    rw [smoothstep_of_ge (by norm_num : ¬((1:ℝ) ≤ 1 - 8/100)) (le_refl 1)]
    rw [show min (1:ℝ) (0 * -1) * (1 - 0.07 * 0) * 1 = 0 by norm_num]
    rw [show min (1:ℝ) (1 * -1) * (1 - 0.07 * 1) * 1 = -(93/100) by
      rw [show (1:ℝ) * -1 = -1 by norm_num, min_eq_right (by norm_num : (-1:ℝ) ≤ 1)]
      norm_num]
    simp only [Lut._monotone_clip, List.map_cons, List.map_nil, Lut.monoPass]
    rw [Lut.clamp01_of_mem (le_refl 0) (by norm_num), clamp01_of_neg (by norm_num)]
    simp [List.getLastD]
  · norm_num

/-- Claim C10 amended: for n at least 2, channel gains in the unit
interval, beta in the unit interval and the default rolloff 0.08, every
sample of each tint channel is at most 0.93, and the last sample equals
gain * 0.93 * beta exactly per channel; in particular the warmth curve
never maps full input 1.0 to full output 1.0.  Nonnegativity of the gains
and of beta (trivially satisfied by the pipeline) must be assumed. -/
theorem C10_tint_bounds_amended (n : ℕ) (hn : 2 ≤ n) (rg gg bg beta : ℝ)
    (hr0 : 0 ≤ rg) (hr1 : rg ≤ 1) (hgg0 : 0 ≤ gg) (hgg1 : gg ≤ 1)
    (hbg0 : 0 ≤ bg) (hbg1 : bg ≤ 1) (hbeta0 : 0 ≤ beta) (hbeta1 : beta ≤ 1) :
    ((∀ a ∈ (Warmth._build_lut_color_tint n rg gg bg beta (8/100)).1, a ≤ 93/100)
      ∧ (Warmth._build_lut_color_tint n rg gg bg beta (8/100)).1.getLastD 0
        = rg * (93/100) * beta)
    ∧ ((∀ a ∈ (Warmth._build_lut_color_tint n rg gg bg beta (8/100)).2.1, a ≤ 93/100)
      ∧ (Warmth._build_lut_color_tint n rg gg bg beta (8/100)).2.1.getLastD 0
        = gg * (93/100) * beta)
    ∧ ((∀ a ∈ (Warmth._build_lut_color_tint n rg gg bg beta (8/100)).2.2, a ≤ 93/100)
      ∧ (Warmth._build_lut_color_tint n rg gg bg beta (8/100)).2.2.getLastD 0
        = bg * (93/100) * beta) := by
  refine ⟨?_, ?_, ?_⟩
  · rw [tint_fst_eq_clip]
    exact tint_channel_bounds hn hr0 hr1 hbeta0 hbeta1
  · rw [tint_snd_eq_clip]
    exact tint_channel_bounds hn hgg0 hgg1 hbeta0 hbeta1
  · rw [tint_thd_eq_clip]
    exact tint_channel_bounds hn hbg0 hbg1 hbeta0 hbeta1

/-- Witness for the amended C10 at n = 2, unit gains, beta 1. -/
theorem C10_witness :
    ((∀ a ∈ (Warmth._build_lut_color_tint 2 1 1 1 1 (8/100)).1, a ≤ 93/100)
      ∧ (Warmth._build_lut_color_tint 2 1 1 1 1 (8/100)).1.getLastD 0
        = 1 * (93/100) * 1)
    ∧ ((∀ a ∈ (Warmth._build_lut_color_tint 2 1 1 1 1 (8/100)).2.1, a ≤ 93/100)
      ∧ (Warmth._build_lut_color_tint 2 1 1 1 1 (8/100)).2.1.getLastD 0
        = 1 * (93/100) * 1)
    ∧ ((∀ a ∈ (Warmth._build_lut_color_tint 2 1 1 1 1 (8/100)).2.2, a ≤ 93/100)
      ∧ (Warmth._build_lut_color_tint 2 1 1 1 1 (8/100)).2.2.getLastD 0
        = 1 * (93/100) * 1) :=
  C10_tint_bounds_amended 2 (by norm_num) 1 1 1 1 (by norm_num) (by norm_num)
    (by norm_num) (by norm_num) (by norm_num) (by norm_num) (by norm_num) (by norm_num)
